import Mathlib

/-!
Verification of WorldWeatherPy against its specification.

Shallow embedding of the two source modules of the repository
(`HistoricalLocationWeather.py` and `DetermineListOfAttributes.py`) and
proofs about that embedding.

Modelling conventions:

* Calendar dates are structures of `Nat` fields (`year`, `month`, `day`)
  ordered lexicographically, matching the behaviour of Python
  `datetime`/pandas `Timestamp` comparison on dates.
* pandas `DataFrame`s are modelled column-wise: a frame is a row count
  together with an ordered list of named columns, each column an ordered
  list of optional cells (a missing cell is pandas `NaN`/`NaT`).
* Cell values are either strings (the provider returns all weather fields
  as JSON strings) or timestamps produced by `pd.to_datetime`.
* Python exceptions (`KeyError`, `ValueError`, `AttributeError`,
  `NameError`, parse failures inside `pd.to_datetime`) are modelled with
  `Except` and an explicit error type.
* pandas semantics are modelled as of the pandas 1.x line the source was
  written against (`pd.date_range(..., closed=...)` and
  `fillna(method='ffill')` exist; selecting a list of column labels where
  some label is absent raises `KeyError`).
* Network transport is out of scope (per the spec): the fetch collaborator
  is an explicit function argument from a sub-interval to the list of
  per-day JSON records it would return, and every fetch invocation is
  recorded in a trace so that "no fetch happens" is a provable statement.
-/

namespace WorldWeatherPy

/-! ## Calendar dates

`datetime.strptime(s, '%Y-%m-%d')` and pandas timestamps compare
chronologically; on pure dates this is exactly the lexicographic order on
`(year, month, day)`. -/

structure Date where
  year : Nat
  month : Nat
  day : Nat
deriving DecidableEq, Repr

/-- Gregorian leap-year rule, as implemented by `datetime`/pandas. -/
def isLeap (y : Nat) : Bool :=
  y % 4 == 0 && (y % 100 != 0 || y % 400 == 0)

/-- Number of days of month `m` of year `y` (months outside 1..12 never
arise for valid dates; the catch-all returns 31). -/
def daysInMonth (y m : Nat) : Nat :=
  if m == 2 then (if isLeap y then 29 else 28)
  else if m == 4 || m == 6 || m == 9 || m == 11 then 30
  else 31

/-- A calendar date that `datetime` would accept. -/
def Date.Valid (d : Date) : Prop :=
  1 ≤ d.month ∧ d.month ≤ 12 ∧ 1 ≤ d.day ∧ d.day ≤ daysInMonth d.year d.month

instance (d : Date) : Decidable d.Valid :=
  inferInstanceAs (Decidable (_ ∧ _ ∧ _ ∧ _))

/-- Chronological (lexicographic) strict order on dates. -/
def Date.lt (a b : Date) : Prop :=
  a.year < b.year ∨ (a.year = b.year ∧
    (a.month < b.month ∨ (a.month = b.month ∧ a.day < b.day)))

/-- Chronological (lexicographic) order on dates. -/
def Date.le (a b : Date) : Prop :=
  a.year < b.year ∨ (a.year = b.year ∧
    (a.month < b.month ∨ (a.month = b.month ∧ a.day ≤ b.day)))

instance : LT Date := ⟨Date.lt⟩

instance : LE Date := ⟨Date.le⟩

instance (a b : Date) : Decidable (a < b) :=
  inferInstanceAs (Decidable (_ ∨ _))

instance (a b : Date) : Decidable (a ≤ b) :=
  inferInstanceAs (Decidable (_ ∨ _))

theorem Date.lt_def (a b : Date) : a < b ↔
    (a.year < b.year ∨ (a.year = b.year ∧
      (a.month < b.month ∨ (a.month = b.month ∧ a.day < b.day)))) := Iff.rfl

theorem Date.le_def (a b : Date) : a ≤ b ↔
    (a.year < b.year ∨ (a.year = b.year ∧
      (a.month < b.month ∨ (a.month = b.month ∧ a.day ≤ b.day)))) := Iff.rfl

/-- Index of a date's calendar month on the unbounded month axis. -/
def monthIdx (d : Date) : Nat := d.year * 12 + (d.month - 1)

/-- First day of the month with index `i`. -/
def monthStart (i : Nat) : Date := ⟨i / 12, i % 12 + 1, 1⟩

/-- Last day of the month with index `i`. -/
def monthEnd (i : Nat) : Date :=
  ⟨i / 12, i % 12 + 1, daysInMonth (i / 12) (i % 12 + 1)⟩

/-- The day after `d` (for a valid `d`), i.e. `d + pd.Timedelta(days=1)`. -/
def Date.next (d : Date) : Date :=
  if d.day < daysInMonth d.year d.month then ⟨d.year, d.month, d.day + 1⟩
  else if d.month < 12 then ⟨d.year, d.month + 1, 1⟩
  else ⟨d.year + 1, 1, 1⟩

/-! ### Basic order lemmas -/

theorem Date.lt_irrefl (a : Date) : ¬ a < a := by
  simp only [Date.lt_def]; omega

theorem Date.lt_trans {a b c : Date} (h1 : a < b) (h2 : b < c) : a < c := by
  simp only [Date.lt_def] at *; omega

theorem Date.le_trans {a b c : Date} (h1 : a ≤ b) (h2 : b ≤ c) : a ≤ c := by
  simp only [Date.le_def] at *; omega

theorem Date.le_of_lt {a b : Date} (h : a < b) : a ≤ b := by
  simp only [Date.lt_def, Date.le_def] at *; omega

theorem Date.lt_of_le_of_lt {a b c : Date} (h1 : a ≤ b) (h2 : b < c) : a < c := by
  simp only [Date.lt_def, Date.le_def] at *; omega

theorem Date.lt_of_lt_of_le {a b c : Date} (h1 : a < b) (h2 : b ≤ c) : a < c := by
  simp only [Date.lt_def, Date.le_def] at *; omega

theorem Date.not_lt {a b : Date} : ¬ a < b ↔ b ≤ a := by
  simp only [Date.lt_def, Date.le_def]; omega

theorem Date.not_le {a b : Date} : ¬ a ≤ b ↔ b < a := by
  simp only [Date.lt_def, Date.le_def]; omega

theorem Date.le_refl (a : Date) : a ≤ a := by
  simp [Date.le_def]

/-! ### Month-boundary lemmas -/

theorem daysInMonth_pos (y m : Nat) : 1 ≤ daysInMonth y m := by
  unfold daysInMonth
  split
  · split <;> omega
  · split <;> omega

theorem monthStart_valid (i : Nat) : (monthStart i).Valid := by
  have := Nat.mod_lt i (y := 12) (by omega)
  exact ⟨by show 1 ≤ i % 12 + 1; omega, by show i % 12 + 1 ≤ 12; omega,
    by show 1 ≤ 1; omega, by show 1 ≤ daysInMonth _ _; exact daysInMonth_pos _ _⟩

theorem monthEnd_valid (i : Nat) : (monthEnd i).Valid := by
  have := Nat.mod_lt i (y := 12) (by omega)
  exact ⟨by show 1 ≤ i % 12 + 1; omega, by show i % 12 + 1 ≤ 12; omega,
    daysInMonth_pos _ _, Nat.le_refl _⟩

theorem monthIdx_monthStart (i : Nat) : monthIdx (monthStart i) = i := by
  simp only [monthIdx, monthStart]
  omega

theorem monthIdx_monthEnd (i : Nat) : monthIdx (monthEnd i) = i := by
  simp only [monthIdx, monthEnd]
  omega

/-- For a valid date, being strictly before the first day of month `i`
is the same as living in a strictly earlier month. -/
theorem lt_monthStart_iff {d : Date} (hd : d.Valid) (i : Nat) :
    d < monthStart i ↔ monthIdx d < i := by
  obtain ⟨h1, h2, h3, _⟩ := hd
  have hq := Nat.div_add_mod i 12
  have hr := Nat.mod_lt i (y := 12) (by omega)
  simp only [Date.lt_def, monthStart, monthIdx]
  omega

/-- For a valid date, being at or before the last day of month `i`
is the same as living in month `i` or earlier. -/
theorem le_monthEnd_iff {d : Date} (hd : d.Valid) (i : Nat) :
    d ≤ monthEnd i ↔ monthIdx d ≤ i := by
  obtain ⟨h1, h2, h3, h4⟩ := hd
  have hq := Nat.div_add_mod i 12
  have hr := Nat.mod_lt i (y := 12) (by omega)
  simp only [Date.le_def, monthEnd, monthIdx]
  constructor
  · intro h; omega
  · intro h
    by_cases hy : d.year < i / 12
    · omega
    · have hy' : d.year = i / 12 := by omega
      by_cases hm : d.month < i % 12 + 1
      · omega
      · have hm' : d.month = i % 12 + 1 := by omega
        right
        refine ⟨hy', Or.inr ⟨hm', ?_⟩⟩
        rw [← hy', ← hm']
        exact h4

theorem monthStart_le_iff {d : Date} (hd : d.Valid) (i : Nat) :
    monthStart i ≤ d ↔ i ≤ monthIdx d := by
  rw [← Date.not_lt, lt_monthStart_iff hd]
  omega

theorem monthEnd_lt_iff {d : Date} (hd : d.Valid) (i : Nat) :
    monthEnd i < d ↔ i < monthIdx d := by
  rw [← Date.not_le, le_monthEnd_iff hd]
  omega

theorem monthStart_le_self {d : Date} (hd : d.Valid) : monthStart (monthIdx d) ≤ d :=
  (monthStart_le_iff hd _).mpr (Nat.le_refl _)

theorem self_le_monthEnd {d : Date} (hd : d.Valid) : d ≤ monthEnd (monthIdx d) :=
  (le_monthEnd_iff hd _).mpr (Nat.le_refl _)

theorem monthIdx_le_of_le {a b : Date} (ha : a.Valid) (hb : b.Valid) (h : a ≤ b) :
    monthIdx a ≤ monthIdx b := by
  obtain ⟨h1, h2, _, _⟩ := ha
  obtain ⟨h1', h2', _, _⟩ := hb
  simp only [Date.le_def] at h
  simp only [monthIdx]
  omega

/-- The day after the last day of a month is the first day of the next. -/
theorem monthEnd_next (i : Nat) : (monthEnd i).next = monthStart (i + 1) := by
  have hq := Nat.div_add_mod i 12
  have hr := Nat.mod_lt i (y := 12) (by omega)
  simp only [monthEnd, Date.next, monthStart]
  have hlt : ¬ daysInMonth (i / 12) (i % 12 + 1) < daysInMonth (i / 12) (i % 12 + 1) :=
    Nat.lt_irrefl _
  rw [if_neg hlt]
  by_cases h : i % 12 + 1 < 12
  · rw [if_pos h]
    have h1 : (i + 1) / 12 = i / 12 := by omega
    have h2 : (i + 1) % 12 = i % 12 + 1 := by omega
    rw [h1, h2]
  · rw [if_neg h]
    have h1 : (i + 1) / 12 = i / 12 + 1 := by omega
    have h2 : (i + 1) % 12 = 0 := by omega
    rw [h1, h2]

theorem monthEnd_lt_monthStart_succ (i : Nat) : monthEnd i < monthStart (i + 1) := by
  rw [lt_monthStart_iff (monthEnd_valid i), monthIdx_monthEnd]
  omega

/-! ## Date-range chunking (`_retrieve_this_city`, lines 133-139)

```
list_month_begin = pd.date_range(self.start_date, self.end_date, freq='MS', closed='right')
list_month_begin = pd.concat([Series(to_datetime(self.start_date)), Series(list_month_begin)], ...)
list_month_end = pd.date_range(self.start_date_datetime, self.end_date_datetime, freq='M', closed='left')
list_month_end = pd.concat([Series(list_month_end), Series(to_datetime(self.end_date))], ...)
```

`pd.date_range(s, e, freq='MS', closed='right')` is the ascending list of
all month-first dates `d` with `s < d ≤ e`; with `freq='M'` and
`closed='left'` it is the ascending list of all month-last dates `d` with
`s ≤ d < e`.  We enumerate candidates over the month indices
`monthIdx s .. monthIdx e` (every month-first date in `(s, e]` and every
month-last date in `[s, e)` lies in one of those calendar months) and keep
exactly the dates pandas would produce, via the date-level filter. -/

/-- Month-first dates `d` with `s < d ≤ e`, ascending
(`pd.date_range(s, e, freq='MS', closed='right')`). -/
def monthStartsBetween (s e : Date) : List Date :=
  ((List.range' (monthIdx s) (monthIdx e - monthIdx s + 1)).map monthStart).filter
    (fun d => decide (s < d ∧ d ≤ e))

/-- `list_month_begin`: the requested start date followed by the
month-first dates in `(start, end]`. -/
def listMonthBegin (s e : Date) : List Date := s :: monthStartsBetween s e

/-- Month-last dates `d` with `s ≤ d < e`, ascending
(`pd.date_range(s, e, freq='M', closed='left')`). -/
def monthEndsBetween (s e : Date) : List Date :=
  ((List.range' (monthIdx s) (monthIdx e - monthIdx s + 1)).map monthEnd).filter
    (fun d => decide (s ≤ d ∧ d < e))

/-- `list_month_end`: the month-last dates in `[start, end)` followed by
the requested end date. -/
def listMonthEnd (s e : Date) : List Date := monthEndsBetween s e ++ [e]

/-- The sub-intervals the loop at lines 142-144 iterates over: the `m`-th
request uses `(list_month_begin[m], list_month_end[m])`.  (The loop indexes
both series positionally over `range(len(list_month_begin))`; since the
two lists provably have equal length this is the positional pairing.) -/
def chunks (s e : Date) : List (Date × Date) :=
  (listMonthBegin s e).zip (listMonthEnd s e)

/-! ### Closed forms for the generated boundary lists -/

theorem monthStartsBetween_eq {s e : Date} (hs : s.Valid) (he : e.Valid)
    (h : s ≤ e) :
    monthStartsBetween s e =
      (List.range' (monthIdx s + 1) (monthIdx e - monthIdx s)).map monthStart := by
  have hle : monthIdx s ≤ monthIdx e := monthIdx_le_of_le hs he h
  unfold monthStartsBetween
  rw [List.range'_succ, List.map_cons, List.filter_cons]
  have h0 : ¬ (s < monthStart (monthIdx s) ∧ monthStart (monthIdx s) ≤ e) := by
    rintro ⟨h1, -⟩
    rw [lt_monthStart_iff hs] at h1
    omega
  rw [if_neg (by simpa using h0)]
  apply List.filter_eq_self.mpr
  intro d hd
  rw [List.mem_map] at hd
  obtain ⟨i, hi, rfl⟩ := hd
  rw [List.mem_range'_1] at hi
  apply decide_eq_true
  exact ⟨(lt_monthStart_iff hs i).mpr (by omega),
    (monthStart_le_iff he i).mpr (by omega)⟩

theorem monthEndsBetween_eq {s e : Date} (hs : s.Valid) (he : e.Valid)
    (h : s ≤ e) :
    monthEndsBetween s e =
      (List.range' (monthIdx s) (monthIdx e - monthIdx s)).map monthEnd := by
  have hle : monthIdx s ≤ monthIdx e := monthIdx_le_of_le hs he h
  unfold monthEndsBetween
  rw [List.range'_concat, List.map_append, List.filter_append]
  have h0 : ¬ (s ≤ monthEnd (monthIdx s + 1 * (monthIdx e - monthIdx s)) ∧
      monthEnd (monthIdx s + 1 * (monthIdx e - monthIdx s)) < e) := by
    rintro ⟨-, h1⟩
    rw [monthEnd_lt_iff he] at h1
    omega
  have h1 : List.filter (fun d => decide (s ≤ d ∧ d < e))
      (List.map monthEnd [monthIdx s + 1 * (monthIdx e - monthIdx s)]) = [] := by
    rw [List.map_cons, List.map_nil, List.filter_cons, if_neg (by simpa using h0)]
    rfl
  rw [h1, List.append_nil]
  apply List.filter_eq_self.mpr
  intro d hd
  rw [List.mem_map] at hd
  obtain ⟨i, hi, rfl⟩ := hd
  rw [List.mem_range'_1] at hi
  apply decide_eq_true
  constructor
  · rw [← Date.not_lt, monthEnd_lt_iff hs]
    omega
  · rw [monthEnd_lt_iff he]
    omega

/-! ### The chunk sequence in recursive form

`chunkList s a k e` is the sequence of sub-intervals starting at `s`
(a date of month `a`), passing through `k` month boundaries, and ending
at `e`: `[(s, monthEnd a), (monthStart (a+1), monthEnd (a+1)), …,
(monthStart (a+k), e)]`.  We prove `chunks` equals this and then reason
about `chunkList` by induction. -/

def chunkList (s : Date) (a k : Nat) (e : Date) : List (Date × Date) :=
  match k with
  | 0 => [(s, e)]
  | Nat.succ k' => (s, monthEnd a) :: chunkList (monthStart (a + 1)) (a + 1) k' e

theorem chunkList_ne_nil (s : Date) (a k : Nat) (e : Date) :
    chunkList s a k e ≠ [] := by
  cases k <;> simp [chunkList]

theorem zip_boundary_lists (k : Nat) : ∀ (a : Nat) (s e : Date),
    ((s :: (List.range' (a + 1) k).map monthStart).zip
      ((List.range' a k).map monthEnd ++ [e])) = chunkList s a k e := by
  induction k with
  | zero => intro a s e; rfl
  | succ k ih =>
    intro a s e
    rw [List.range'_succ a, List.range'_succ (a + 1)]
    simp only [List.map_cons, List.cons_append, List.zip_cons_cons, chunkList]
    rw [← ih (a + 1) (monthStart (a + 1)) e]

theorem chunks_eq {s e : Date} (hs : s.Valid) (he : e.Valid) (h : s ≤ e) :
    chunks s e = chunkList s (monthIdx s) (monthIdx e - monthIdx s) e := by
  unfold chunks listMonthBegin listMonthEnd
  rw [monthStartsBetween_eq hs he h, monthEndsBetween_eq hs he h]
  exact zip_boundary_lists _ _ _ _

/-! ### Properties of `chunkList` -/

theorem chunkList_head (s : Date) (a k : Nat) (e : Date) :
    (chunkList s a k e).head?.map Prod.fst = some s := by
  cases k <;> rfl

theorem chunkList_getLast (s : Date) (a k : Nat) (e : Date) :
    (chunkList s a k e).getLast?.map Prod.snd = some e := by
  induction k generalizing s a with
  | zero => rfl
  | succ k ih =>
    show ((s, monthEnd a) :: chunkList (monthStart (a + 1)) (a + 1) k e).getLast?.map
      Prod.snd = some e
    rw [List.getLast?_cons]
    have hne := chunkList_ne_nil (monthStart (a + 1)) (a + 1) k e
    rcases hl : chunkList (monthStart (a + 1)) (a + 1) k e with - | ⟨p, t⟩
    · exact absurd hl hne
    · have := ih (monthStart (a + 1)) (a + 1)
      rw [hl] at this
      rw [List.getLast?_cons] at this ⊢
      simpa using this

theorem chunkList_chain (s : Date) (a k : Nat) (e : Date) :
    List.Chain' (fun p q : Date × Date => q.1 = p.2.next) (chunkList s a k e) := by
  induction k generalizing s a with
  | zero => simp [chunkList]
  | succ k ih =>
    show List.Chain' _ ((s, monthEnd a) :: chunkList (monthStart (a + 1)) (a + 1) k e)
    rw [List.chain'_cons']
    refine ⟨?_, ih _ _⟩
    intro q hq
    have hh := chunkList_head (monthStart (a + 1)) (a + 1) k e
    rcases hl : chunkList (monthStart (a + 1)) (a + 1) k e with - | ⟨p, t⟩
    · rw [hl] at hq; simp at hq
    · rw [hl] at hq hh
      simp only [List.head?_cons, Option.map_some', Option.mem_def,
        Option.some.injEq] at hq hh
      subst hq
      show p.1 = (monthEnd a).next
      rw [monthEnd_next]
      exact hh

theorem chunkList_bounds {e : Date} (he : e.Valid) :
    ∀ (k a : Nat) (s : Date), s.Valid → monthIdx s = a → a + k = monthIdx e →
      s ≤ e → ∀ p ∈ chunkList s a k e, p.1 ≤ p.2 := by
  intro k
  induction k with
  | zero =>
    intro a s hs hmi hk hse p hp
    simp only [chunkList, List.mem_singleton] at hp
    subst hp
    exact hse
  | succ k ih =>
    intro a s hs hmi hk hse p hp
    simp only [chunkList, List.mem_cons] at hp
    rcases hp with rfl | hp
    · show s ≤ monthEnd a
      rw [← hmi]
      exact self_le_monthEnd hs
    · refine ih (a + 1) (monthStart (a + 1)) (monthStart_valid _)
        (monthIdx_monthStart _) (by omega) ?_ p hp
      rw [monthStart_le_iff he]
      omega

theorem chunkList_start_lb {e : Date} :
    ∀ (k a : Nat) (s : Date), s.Valid → monthIdx s = a →
      ∀ p ∈ chunkList s a k e, s ≤ p.1 := by
  intro k
  induction k with
  | zero =>
    intro a s hs hmi p hp
    simp only [chunkList, List.mem_singleton] at hp
    subst hp
    exact Date.le_refl s
  | succ k ih =>
    intro a s hs hmi p hp
    simp only [chunkList, List.mem_cons] at hp
    rcases hp with rfl | hp
    · exact Date.le_refl s
    · have h1 : s ≤ monthStart (a + 1) := by
        refine Date.le_trans ?_ (Date.le_of_lt (monthEnd_lt_monthStart_succ a))
        rw [← hmi]
        exact self_le_monthEnd hs
      exact Date.le_trans h1
        (ih (a + 1) (monthStart (a + 1)) (monthStart_valid _) (monthIdx_monthStart _) p hp)

theorem chunkList_pairwise {e : Date} :
    ∀ (k a : Nat) (s : Date), s.Valid → monthIdx s = a →
      List.Pairwise (fun p q : Date × Date => p.2 < q.1) (chunkList s a k e) := by
  intro k
  induction k with
  | zero => intro a s hs hmi; simp [chunkList]
  | succ k ih =>
    intro a s hs hmi
    show List.Pairwise _ ((s, monthEnd a) :: chunkList (monthStart (a + 1)) (a + 1) k e)
    rw [List.pairwise_cons]
    refine ⟨?_, ih (a + 1) (monthStart (a + 1)) (monthStart_valid _) (monthIdx_monthStart _)⟩
    intro q hq
    show monthEnd a < q.1
    exact Date.lt_of_lt_of_le (monthEnd_lt_monthStart_succ a)
      (chunkList_start_lb k (a + 1) (monthStart (a + 1)) (monthStart_valid _)
        (monthIdx_monthStart _) q hq)

theorem chunkList_cover {e : Date} (he : e.Valid) :
    ∀ (k a : Nat) (s : Date), s.Valid → monthIdx s = a → a + k = monthIdx e →
      s ≤ e → ∀ d : Date, d.Valid →
      ((s ≤ d ∧ d ≤ e) ↔ ∃ p ∈ chunkList s a k e, p.1 ≤ d ∧ d ≤ p.2) := by
  intro k
  induction k with
  | zero =>
    intro a s hs hmi hk hse d hd
    simp [chunkList]
  | succ k ih =>
    intro a s hs hmi hk hse d hd
    constructor
    · rintro ⟨h1, h2⟩
      by_cases hcase : monthIdx d ≤ a
      · refine ⟨(s, monthEnd a), List.mem_cons_self _ _, h1, ?_⟩
        exact (le_monthEnd_iff hd a).mpr hcase
      · have h3 : monthStart (a + 1) ≤ d := (monthStart_le_iff hd _).mpr (by omega)
        obtain ⟨p, hp, hpd⟩ :=
          ((ih (a + 1) (monthStart (a + 1)) (monthStart_valid _) (monthIdx_monthStart _)
            (by omega) ((monthStart_le_iff he _).mpr (by omega)) d hd).mp ⟨h3, h2⟩)
        exact ⟨p, List.mem_cons_of_mem _ hp, hpd⟩
    · rintro ⟨p, hp, hpd1, hpd2⟩
      simp only [chunkList, List.mem_cons] at hp
      rcases hp with rfl | hp
      · refine ⟨hpd1, ?_⟩
        refine Date.le_trans hpd2 (Date.le_of_lt ?_)
        rw [monthEnd_lt_iff he]
        omega
      · have hrec := (ih (a + 1) (monthStart (a + 1)) (monthStart_valid _)
          (monthIdx_monthStart _) (by omega)
          ((monthStart_le_iff he _).mpr (by omega)) d hd).mpr ⟨p, hp, hpd1, hpd2⟩
        refine ⟨?_, hrec.2⟩
        refine Date.le_trans ?_ hrec.1
        refine Date.le_trans ?_ (Date.le_of_lt (monthEnd_lt_monthStart_succ a))
        rw [← hmi]
        exact self_le_monthEnd hs

/-- Sanity instance of the chunking on the spec's concrete scenario
(2020-01-01 .. 2020-03-15 splits into three month-aligned requests,
with the 2020 leap February ending on the 29th). -/
theorem chunks_concrete_scenario :
    chunks ⟨2020, 1, 1⟩ ⟨2020, 3, 15⟩ =
      [(⟨2020, 1, 1⟩, ⟨2020, 1, 31⟩), (⟨2020, 2, 1⟩, ⟨2020, 2, 29⟩),
       (⟨2020, 3, 1⟩, ⟨2020, 3, 15⟩)] := by
  decide

/-- C1: for valid `start < end`, the month-chunking step produces an
ascending, contiguous, non-overlapping sequence of sub-intervals whose
union is exactly `[start, end]`, starting at `start` and ending at `end`;
and a same-calendar-month range yields the single sub-interval
`[(start, end)]`.  Contiguity is `q.start = q.previous.end + 1 day`;
ascending and non-overlapping is `p.end < q.start` for every earlier `p`;
the union statement quantifies over all valid dates. -/
theorem c1_range_partition (s e : Date) (hs : s.Valid) (he : e.Valid)
    (hlt : s < e) :
    chunks s e ≠ [] ∧
    (chunks s e).head?.map Prod.fst = some s ∧
    (chunks s e).getLast?.map Prod.snd = some e ∧
    List.Chain' (fun p q : Date × Date => q.1 = p.2.next) (chunks s e) ∧
    List.Pairwise (fun p q : Date × Date => p.2 < q.1) (chunks s e) ∧
    (∀ p ∈ chunks s e, p.1 ≤ p.2) ∧
    (∀ d : Date, d.Valid →
      ((s ≤ d ∧ d ≤ e) ↔ ∃ p ∈ chunks s e, p.1 ≤ d ∧ d ≤ p.2)) ∧
    (monthIdx s = monthIdx e → chunks s e = [(s, e)]) := by
  have hse := Date.le_of_lt hlt
  have hmi := monthIdx_le_of_le hs he hse
  have hce := chunks_eq hs he hse
  rw [hce]
  refine ⟨chunkList_ne_nil _ _ _ _, chunkList_head _ _ _ _,
    chunkList_getLast _ _ _ _, chunkList_chain _ _ _ _,
    chunkList_pairwise _ _ _ hs rfl,
    chunkList_bounds he _ _ _ hs rfl (by omega) hse,
    chunkList_cover he _ _ _ hs rfl (by omega) hse, ?_⟩
  intro hsame
  have h0 : monthIdx e - monthIdx s = 0 := by omega
  rw [h0]
  rfl

theorem c1_range_partition_witness :
    (⟨2020, 1, 15⟩ : Date).Valid ∧ (⟨2020, 3, 10⟩ : Date).Valid ∧
    (⟨2020, 1, 15⟩ : Date) < ⟨2020, 3, 10⟩ ∧
    (chunks ⟨2020, 1, 15⟩ ⟨2020, 3, 10⟩ ≠ [] ∧
    (chunks ⟨2020, 1, 15⟩ ⟨2020, 3, 10⟩).head?.map Prod.fst = some ⟨2020, 1, 15⟩ ∧
    (chunks ⟨2020, 1, 15⟩ ⟨2020, 3, 10⟩).getLast?.map Prod.snd = some ⟨2020, 3, 10⟩ ∧
    List.Chain' (fun p q : Date × Date => q.1 = p.2.next)
      (chunks ⟨2020, 1, 15⟩ ⟨2020, 3, 10⟩) ∧
    List.Pairwise (fun p q : Date × Date => p.2 < q.1)
      (chunks ⟨2020, 1, 15⟩ ⟨2020, 3, 10⟩) ∧
    (∀ p ∈ chunks ⟨2020, 1, 15⟩ ⟨2020, 3, 10⟩, p.1 ≤ p.2) ∧
    (∀ d : Date, d.Valid →
      (((⟨2020, 1, 15⟩ : Date) ≤ d ∧ d ≤ ⟨2020, 3, 10⟩) ↔
        ∃ p ∈ chunks ⟨2020, 1, 15⟩ ⟨2020, 3, 10⟩, p.1 ≤ d ∧ d ≤ p.2)) ∧
    (monthIdx ⟨2020, 1, 15⟩ = monthIdx ⟨2020, 3, 10⟩ →
      chunks ⟨2020, 1, 15⟩ ⟨2020, 3, 10⟩ = [(⟨2020, 1, 15⟩, ⟨2020, 3, 10⟩)])) :=
  ⟨by decide, by decide, by decide,
    c1_range_partition ⟨2020, 1, 15⟩ ⟨2020, 3, 10⟩ (by decide) (by decide) (by decide)⟩

/-- C4: the generated sequence of sub-interval start dates and the
generated sequence of sub-interval end dates always have the same length,
so pairing them positionally is well defined. -/
theorem c4_boundary_lists_equal_length (s e : Date) (hs : s.Valid)
    (he : e.Valid) (hlt : s < e) :
    (listMonthBegin s e).length = (listMonthEnd s e).length := by
  have hse := Date.le_of_lt hlt
  rw [listMonthBegin, listMonthEnd, monthStartsBetween_eq hs he hse,
    monthEndsBetween_eq hs he hse]
  simp [List.length_range']

theorem c4_boundary_lists_equal_length_witness :
    ((⟨2021, 6, 17⟩ : Date).Valid ∧ (⟨2021, 9, 1⟩ : Date).Valid ∧
      (⟨2021, 6, 17⟩ : Date) < ⟨2021, 9, 1⟩ ∧
      (listMonthBegin ⟨2021, 6, 17⟩ ⟨2021, 9, 1⟩).length =
        (listMonthEnd ⟨2021, 6, 17⟩ ⟨2021, 9, 1⟩).length) :=
  ⟨by decide, by decide, by decide,
    c4_boundary_lists_equal_length ⟨2021, 6, 17⟩ ⟨2021, 9, 1⟩
      (by decide) (by decide) (by decide)⟩

/-! ## Cell values, errors, and string helpers

The provider (WorldWeatherOnline JSON) delivers every weather field as a
string; `pd.to_datetime` introduces timestamp cells.  Python exceptions
raised by the source are modelled by `PyErr`. -/

inductive PyVal where
  | str : String → PyVal
  | dt : Date → Nat → PyVal
deriving DecidableEq, Repr

inductive PyErr where
  | keyError : String → PyErr
  | valueError : String → PyErr
  | typeError : String → PyErr
  | attributeError : String → PyErr
  | indexError : String → PyErr
  | nameError : String → PyErr
  | parseError : String → PyErr
deriving DecidableEq, Repr

/-- Python `str.zfill(n)`: left-pad with `'0'` to length `n` (the
provider's `time` strings are unsigned, so no sign handling arises). -/
def zfill (n : Nat) (s : String) : String :=
  String.mk (List.replicate (n - s.data.length) '0' ++ s.data)

/-- Python `s[:n]` / pandas `.str[:n]` on a string. -/
def strTake (n : Nat) (s : String) : String :=
  String.mk (s.data.take n)

def splitOnChar (sep : Char) : List Char → List (List Char)
  | [] => [[]]
  | c :: t =>
    if c = sep then [] :: splitOnChar sep t
    else
      match splitOnChar sep t with
      | [] => [[c]]
      | h :: t2 => (c :: h) :: t2

def digitsValCore : Nat → List Char → Option Nat
  | acc, [] => some acc
  | acc, c :: t =>
    if c.isDigit then digitsValCore (acc * 10 + (c.toNat - 48)) t else none

def digitsVal (l : List Char) : Option Nat :=
  match l with
  | [] => none
  | _ => digitsValCore 0 l

/-- `pd.to_datetime` on the combined `date + ' ' + time` string.  The
provider's `date` field is `YYYY-mm-dd` and the derived `time` is a
two-digit hour, so the parse accepts exactly `Y-M-D H` with an existing
calendar date and an hour below 24 (pandas accepts further formats; none
arise from this pipeline). -/
def parseTS (s : String) : Option (Date × Nat) :=
  match splitOnChar ' ' s.data with
  | [ds, hsc] =>
    match splitOnChar '-' ds with
    | [ys, ms, dcs] =>
      match digitsVal ys, digitsVal ms, digitsVal dcs, digitsVal hsc with
      | some y, some m, some dd, some hh =>
        if (Date.mk y m dd).Valid ∧ hh < 24 then some (⟨y, m, dd⟩, hh)
        else none
      | _, _, _, _ => none
    | _ => none
  | _ => none

/-! ## Column-wise DataFrame model

A pandas DataFrame with the default `RangeIndex`, modelled column-wise: a
row count plus ordered, possibly duplicate-named columns; a missing cell
(`NaN`/`NaT`) is `none`.  Only the operations the source uses are
modelled, each with the pandas-1.x semantics of the corresponding call. -/

structure Frame where
  nrows : Nat
  cols : List (String × List (Option PyVal))
deriving DecidableEq, Repr

def emptyFrame : Frame := ⟨0, []⟩

/-- Column-name list of a frame, in order. -/
def Frame.names (f : Frame) : List String := f.cols.map Prod.fst

/-- Keys of a list of JSON records in order of first appearance
(`pd.DataFrame(list_of_dicts)` column construction). -/
def recordKeys (rs : List (List (String × String))) : List String :=
  rs.foldl (fun acc r => acc ++ (r.map Prod.fst).filter (fun k => decide (¬ k ∈ acc))) []

/-- `pd.DataFrame(list_of_dicts)`: one row per record, one column per key
in first-appearance order, `NaN` where a record lacks the key. -/
def ofRecords (rs : List (List (String × String))) : Frame :=
  ⟨rs.length,
    (recordKeys rs).map fun k => (k, rs.map fun r => (List.lookup k r).map PyVal.str)⟩

/-- `pd.DataFrame(dict, index=[0])`: a single-row frame (the keys of the
dict built at line 95 are distinct by construction). -/
def ofDict (d : List (String × String)) : Frame :=
  ⟨1, d.map fun kv => (kv.1, [some (PyVal.str kv.2)])⟩

/-- Outer-join padding of a column to `n` rows. -/
def pad (n : Nat) (c : List (Option PyVal)) : List (Option PyVal) :=
  c.take n ++ List.replicate (n - c.length) none

/-- `pd.concat([x, y], axis=1)` on default integer indexes: columns side
by side, shorter side padded with `NaN`. -/
def hconcat (x y : Frame) : Frame :=
  ⟨max x.nrows y.nrows,
    (x.cols ++ y.cols).map fun kc => (kc.1, pad (max x.nrows y.nrows) kc.2)⟩

def ffillCol : Option PyVal → List (Option PyVal) → List (Option PyVal)
  | _, [] => []
  | last, none :: t => last :: ffillCol last t
  | _, some v :: t => some v :: ffillCol (some v) t

/-- `fillna(method='ffill')`: forward-fill each column downwards. -/
def ffill (f : Frame) : Frame :=
  ⟨f.nrows, f.cols.map fun kc => (kc.1, ffillCol none kc.2)⟩

/-- `data[k]` for a single label: the first column named `k`, if any
(`KeyError` at the call sites when absent; the labels read this way are
unique in every frame the source builds). -/
def getCol (f : Frame) (k : String) : Option (List (Option PyVal)) :=
  List.lookup k f.cols

/-- `data[k] = column`: replace the column(s) named `k`, or append a new
column when the label is absent. -/
def setCol (f : Frame) (k : String) (c : List (Option PyVal)) : Frame :=
  if (List.lookup k f.cols).isSome then
    ⟨f.nrows, f.cols.map fun kc => if kc.1 = k then (k, c) else kc⟩
  else ⟨f.nrows, f.cols ++ [(k, c)]⟩

/-- `.apply(lambda x: x.zfill(4))`: Python raises `AttributeError` as soon
as a cell is not a string (`NaN` is a float). -/
def applyZfillCol : List (Option PyVal) → Except PyErr (List (Option PyVal))
  | [] => .ok []
  | some (.str s) :: t => do
    let r ← applyZfillCol t
    .ok (some (.str (zfill 4 s)) :: r)
  | _ :: _ => .error (.attributeError "zfill")

/-- `.str[:2]`: the string accessor slices strings and yields `NaN` on
non-string cells. -/
def strSliceCol (n : Nat) (c : List (Option PyVal)) : List (Option PyVal) :=
  c.map fun x =>
    match x with
    | some (.str s) => some (.str (strTake n s))
    | _ => none

/-- One row of `pd.to_datetime(data['date'] + ' ' + data['time'])`:
string + string concatenates, `NaN` propagates to `NaT`, a non-string in
either operand is a `TypeError`, and an unparseable combined string makes
`to_datetime` raise. -/
def combineCell : Option PyVal → Option PyVal → Except PyErr (Option PyVal)
  | some (.str ds), some (.str ts) =>
    match parseTS (ds ++ " " ++ ts) with
    | some p => .ok (some (.dt p.1 p.2))
    | none => .error (.parseError (ds ++ " " ++ ts))
  | none, _ => .ok none
  | _, none => .ok none
  | _, _ => .error (.typeError "datetime")

def combineDateTimeCol : List (Option PyVal) → List (Option PyVal) →
    Except PyErr (List (Option PyVal))
  | [], _ => .ok []
  | _ :: _, [] => .ok []
  | d :: dt, t :: tt => do
    let c ← combineCell d t
    let r ← combineDateTimeCol dt tt
    .ok (c :: r)

/-- `data[columns_required]` with a list of labels: pandas ≥ 1.0 raises
`KeyError` when any requested label is absent; otherwise, for each label
in order, every column carrying it is selected. -/
def selectCols (f : Frame) (ks : List String) : Except PyErr Frame :=
  match ks.find? (fun k => (List.lookup k f.cols).isNone) with
  | some k => .error (.keyError k)
  | none =>
    .ok ⟨f.nrows, (ks.map fun k => f.cols.filter fun kc => kc.1 == k).flatten⟩

def dedupKeys : List (String × List (Option PyVal)) → List String →
    List (String × List (Option PyVal))
  | [], _ => []
  | kc :: t, seen =>
    if kc.1 ∈ seen then dedupKeys t seen else kc :: dedupKeys t (kc.1 :: seen)

/-- `data.loc[:, ~data.columns.duplicated()]`: keep the first column of
each name. -/
def dedupCols (f : Frame) : Frame := ⟨f.nrows, dedupKeys f.cols []⟩

/-- `pd.concat([x, y])` (axis=0, outer join on columns): stack rows; the
column order is `x`'s columns followed by `y`'s new ones; a column absent
on one side contributes `NaN` rows.  (The frames concatenated by the
source have duplicate-free column names.) -/
def vconcat (x y : Frame) : Frame :=
  ⟨x.nrows + y.nrows,
    (x.names ++ (y.names.filter fun k => decide (¬ k ∈ x.names))).map fun k =>
      (k, ((List.lookup k x.cols).getD (List.replicate x.nrows none)) ++
          ((List.lookup k y.cols).getD (List.replicate y.nrows none)))⟩

/-! ## Provider day records and `_extract_data` (lines 72-114)

A provider `data['data']['weather']` entry is a JSON object with scalar
day-level fields, an `astronomy` array and an `hourly` array.  `Option`
models key presence (a missing key means `d['astronomy']` / `d['hourly']`
raises `KeyError`); all scalar values are strings, as delivered by the
provider. -/

structure DayRecord where
  fields : List (String × String)
  astronomy : Option (List (List (String × String)))
  hourly : Option (List (List (String × String)))
deriving DecidableEq, Repr

/-- Line 94: `required_keys`. -/
def requiredKeys : List String :=
  ["date", "maxtempC", "mintempC", "totalSnow_cm", "sunHour", "uvIndex"]

/-- Lines 105-109: `columns_required`. -/
def columnsRequired : List String :=
  ["date_time", "maxtempC", "mintempC", "totalSnow_cm", "sunHour", "uvIndex",
   "moon_illumination", "moonrise", "moonset", "sunrise", "sunset",
   "DewPointC", "FeelsLikeC", "HeatIndexC", "WindChillC", "WindGustKmph",
   "cloudcover", "humidity", "precipMM", "pressure", "tempC", "visibility",
   "winddirDegree", "windspeedKmph"]

/-- Line 95: `dict((k, d[k]) for k in required_keys if k in d)`. -/
def requiredSubset (fields : List (String × String)) : List (String × String) :=
  requiredKeys.filterMap fun k => (List.lookup k fields).map fun v => (k, v)

/-- The body of the day loop of `_extract_data` (lines 90-112) for a
single day record `d`, step by step in source order: build the three
frames, `concat` them horizontally, forward-fill, derive the hour and the
timestamp, select the required columns, drop duplicate column names.
Missing keys raise `KeyError` exactly where the source subscripts. -/
def extractDay (d : DayRecord) : Except PyErr Frame :=
  match d.astronomy with
  | none => .error (.keyError "astronomy")
  | some a =>
    match d.hourly with
    | none => .error (.keyError "hourly")
    | some h =>
      let astronomyData := ofRecords a
      let hourlyData := ofRecords h
      let weatherData := ofDict (requiredSubset d.fields)
      let data1 := hconcat weatherData astronomyData
      let data2 := hconcat data1 hourlyData
      let data3 := ffill data2
      match getCol data3 "time" with
      | none => .error (.keyError "time")
      | some timeCol =>
        match applyZfillCol timeCol with
        | .error e => .error e
        | .ok timeZf =>
          let data4 := setCol data3 "time" timeZf
          match getCol data4 "time" with
          | none => .error (.keyError "time")
          | some timeCol2 =>
            let data5 := setCol data4 "time" (strSliceCol 2 timeCol2)
            match getCol data5 "date" with
            | none => .error (.keyError "date")
            | some dateCol =>
              match getCol data5 "time" with
              | none => .error (.keyError "time")
              | some timeCol3 =>
                match combineDateTimeCol dateCol timeCol3 with
                | .error e => .error e
                | .ok dtCol =>
                  let data6 := setCol data5 "date_time" dtCol
                  match selectCols data6 columnsRequired with
                  | .error e => .error e
                  | .ok data7 => .ok (dedupCols data7)

/-- The day loop of `_extract_data`: start from `pd.DataFrame()` and
`pd.concat` each day's block below the accumulator. -/
def extractLoop : List DayRecord → Frame → Except PyErr Frame
  | [], acc => .ok acc
  | d :: ds, acc =>
    match extractDay d with
    | .error e => .error e
    | .ok f => extractLoop ds (vconcat acc f)

/-- `_extract_data(dataset)`. -/
def extractData (ds : List DayRecord) : Except PyErr Frame :=
  extractLoop ds emptyFrame

/-! ## Constructor validation and the retrieval pipeline
(`__init__` lines 31-70, `_retrieve_this_city` lines 116-160,
`retrieve_hist_data` lines 162-188)

The constructor's date strings are modelled as already-parsed `Date`s
(`datetime.strptime` both parses and validates the `YYYY-mm-dd` format;
format errors are outside the claims considered here).  The two `while`
guards at lines 54 and 59 raise on their first iteration, so each is an
`if` raise.  The network fetch is an explicit collaborator argument
mapping a sub-interval to the day records of the decoded response, and
the list of fetch invocations (one per URL opened) is returned as a
trace.  CSV persistence and printing are I/O, out of scope per the spec. -/

structure State where
  city : String
  startDate : Date
  endDate : Date
  frequency : Int
  csvDirectory : Option String
deriving DecidableEq, Repr

/-- `__init__` validation (lines 52-70).  `isinstance` checks are
enforced by the types of the embedding. -/
def init (city : String) (startDate endDate : Date) (frequency : Int)
    (csvDirectory : Option String) : Except PyErr State :=
  if endDate ≤ startDate then
    .error (.valueError "end_date argument cannot occur prior to the start_date argument.")
  else if ¬ frequency ∈ ([1, 3, 6, 12] : List Int) then
    .error (.valueError "frequency argument (hours) must be selected from: 1,3,6,12.")
  else
    .ok ⟨city, startDate, endDate, frequency, csvDirectory⟩

/-- `data_this_month['city'] = city` (line 153): broadcast the scalar to
a new column. -/
def addCity (f : Frame) (city : String) : Frame :=
  setCol f "city" (List.replicate f.nrows (some (.str city)))

/-- The month loop of `_retrieve_this_city` (lines 142-158): fetch each
sub-interval in order, flatten it, tag the city and stack the result
below the accumulator.  Every fetch performed is recorded in the trace;
an extraction error aborts the loop (the exception propagates). -/
def retrieveLoop (fetch : Date → Date → List DayRecord) (city : String) :
    List (Date × Date) → Frame → List (Date × Date) →
      Except PyErr Frame × List (Date × Date)
  | [], acc, tr => (.ok acc, tr)
  | (a, b) :: rest, acc, tr =>
    match extractData (fetch a b) with
    | .error e => (.error e, tr ++ [(a, b)])
    | .ok m => retrieveLoop fetch city rest (vconcat acc (addCity m city)) (tr ++ [(a, b)])

/-- `_retrieve_this_city(city)`. -/
def retrieveThisCity (st : State) (fetch : Date → Date → List DayRecord) :
    Except PyErr Frame × List (Date × Date) :=
  retrieveLoop fetch st.city (chunks st.startDate st.endDate) emptyFrame []

/-- `dataset.set_index('date_time', drop=True)`: move the column to the
index (`KeyError` when absent; `verify_integrity` is not requested, so
duplicates pass silently). -/
def setIndex (f : Frame) (k : String) :
    Except PyErr (List (Option PyVal) × Frame) :=
  match List.lookup k f.cols with
  | none => .error (.keyError k)
  | some c => .ok (c, ⟨f.nrows, f.cols.eraseP fun kc => kc.1 == k⟩)

/-- `retrieve_hist_data()`: index the assembled frame by `date_time` and
return it (the optional CSV write is I/O, out of scope). -/
def retrieveHistData (st : State) (fetch : Date → Date → List DayRecord) :
    Except PyErr (List (Option PyVal) × Frame) × List (Date × Date) :=
  match retrieveThisCity st fetch with
  | (.error e, tr) => (.error e, tr)
  | (.ok f, tr) =>
    match setIndex f "date_time" with
    | .error e => (.error e, tr)
    | .ok p => (.ok p, tr)

/-- Construct the object and run `retrieve_hist_data`, threading the
fetch collaborator; a validation error in `__init__` means the retrieval
body never runs and the fetch trace is empty. -/
def runPipeline (city : String) (startDate endDate : Date) (frequency : Int)
    (csvDirectory : Option String) (fetch : Date → Date → List DayRecord) :
    Except PyErr (List (Option PyVal) × Frame) × List (Date × Date) :=
  match init city startDate endDate frequency csvDirectory with
  | .error e => (.error e, [])
  | .ok st => retrieveHistData st fetch

/-! ## The `csv_directory = root_dir` default (line 38)

Python evaluates default-argument expressions when the `def` statement
executes — here while the class body runs at import time — resolving
names against the enclosing module/global/builtin scopes.  Before the
class body executes, `HistoricalLocationWeather.py` has bound only its
imports (lines 1-7); `root_dir` is bound nowhere in the module. -/

/-- Names bound at module level in `HistoricalLocationWeather.py` when
the `def __init__` line executes (the imports of lines 1-7). -/
def moduleBindings : List String :=
  ["urllib", "json", "pd", "datetime", "os"]

/-- Resolving a global name at class-definition time. -/
def evalModuleName (n : String) : Except PyErr String :=
  if n ∈ moduleBindings then .ok n else .error (.nameError n)

/-- Evaluating the `csv_directory` default expression `root_dir`. -/
def evalCsvDirectoryDefault : Except PyErr String :=
  evalModuleName "root_dir"

/-- A construction that does not override `csv_directory`: the default
expression must have evaluated before `__init__` can run. -/
def constructWithDefault (city : String) (s e : Date) (freq : Int) :
    Except PyErr State := do
  let dir ← evalCsvDirectoryDefault
  init city s e freq (some dir)

/-! ## `DetermineListOfAttributes.retrieve_list_of_options` (lines 43-71) -/

structure AttrState where
  apiKey : String
  cityName : String
  date : String
  verbose : Bool
deriving DecidableEq, Repr

/-- `retrieve_list_of_options`: `attribute_list = []`, then the whole
fetch/build/return body — including the final `return attribute_list` —
sits under `if self.verbose:`; a non-verbose call falls off the end of
the function and returns Python `None`.  The fetch collaborator returns
the decoded `data['data']['weather']` list; each URL opened is traced. -/
def retrieveListOfOptions (st : AttrState) (fetch : Unit → List DayRecord) :
    Except PyErr (Option (List String)) × List Unit :=
  if st.verbose then
    let data := fetch ()
    match data[1]? with
    | none => (.error (.indexError "list index out of range"), [()])
    | some d =>
      match d.astronomy with
      | none => (.error (.keyError "astronomy"), [()])
      | some a =>
        match d.hourly with
        | none => (.error (.keyError "hourly"), [()])
        | some h => (.ok (some ((ofRecords a).names ++ (ofRecords h).names)), [()])
  else (.ok none, [])

/-! ## Well-formed provider records

The spec's `DayRecord` shape (§3, §4.2): the six day-level scalar fields,
one astronomy sub-record with the five astronomy fields, and one hourly
sub-record per sampled hour with the fourteen hourly fields.  The values
are arbitrary strings. -/

structure DayVals where
  date : String
  maxtempC : String
  mintempC : String
  totalSnowCm : String
  sunHour : String
  uvIndex : String
deriving DecidableEq, Repr

structure AstroVals where
  moonIllum : String
  moonrise : String
  moonset : String
  sunrise : String
  sunset : String
deriving DecidableEq, Repr

structure HourVals where
  time : String
  dewPointC : String
  feelsLikeC : String
  heatIndexC : String
  windChillC : String
  windGustKmph : String
  cloudcover : String
  humidity : String
  precipMM : String
  pressure : String
  tempC : String
  visibility : String
  winddirDegree : String
  windspeedKmph : String
deriving DecidableEq, Repr

def DayVals.fields (v : DayVals) : List (String × String) :=
  [("date", v.date), ("maxtempC", v.maxtempC), ("mintempC", v.mintempC),
   ("totalSnow_cm", v.totalSnowCm), ("sunHour", v.sunHour), ("uvIndex", v.uvIndex)]

def AstroVals.record (v : AstroVals) : List (String × String) :=
  [("moon_illumination", v.moonIllum), ("moonrise", v.moonrise),
   ("moonset", v.moonset), ("sunrise", v.sunrise), ("sunset", v.sunset)]

def HourVals.record (v : HourVals) : List (String × String) :=
  [("time", v.time), ("DewPointC", v.dewPointC), ("FeelsLikeC", v.feelsLikeC),
   ("HeatIndexC", v.heatIndexC), ("WindChillC", v.windChillC),
   ("WindGustKmph", v.windGustKmph), ("cloudcover", v.cloudcover),
   ("humidity", v.humidity), ("precipMM", v.precipMM), ("pressure", v.pressure),
   ("tempC", v.tempC), ("visibility", v.visibility),
   ("winddirDegree", v.winddirDegree), ("windspeedKmph", v.windspeedKmph)]

/-- A well-formed provider day record. -/
def stdDay (dv : DayVals) (av : AstroVals) (hs : List HourVals) : DayRecord :=
  ⟨dv.fields, some [av.record], some (hs.map HourVals.record)⟩

/-- The hour-of-day string the source derives at lines 101-102:
left-zero-pad the hourly `time` to 4 characters, keep the first two. -/
def hourStr (t : String) : String := strTake 2 (zfill 4 t)

/-- The timestamp cell the source derives at line 103 for one hourly
sub-record: `to_datetime(date + ' ' + derived-hour)`. -/
def tsCell (d t : String) : Option PyVal :=
  (parseTS (d ++ " " ++ hourStr t)).map fun p => PyVal.dt p.1 p.2

/-- The frame `_extract_data` produces for one well-formed day record:
one row per hourly sub-record; the day-level and astronomy columns are
the single day value broadcast to every row; the hourly columns carry
each row's own value; columns in the required order. -/
def stdFrame (dv : DayVals) (av : AstroVals) (hs : List HourVals) : Frame :=
  ⟨hs.length,
   [("date_time", hs.map fun h => tsCell dv.date h.time),
    ("maxtempC", List.replicate hs.length (some (.str dv.maxtempC))),
    ("mintempC", List.replicate hs.length (some (.str dv.mintempC))),
    ("totalSnow_cm", List.replicate hs.length (some (.str dv.totalSnowCm))),
    ("sunHour", List.replicate hs.length (some (.str dv.sunHour))),
    ("uvIndex", List.replicate hs.length (some (.str dv.uvIndex))),
    ("moon_illumination", List.replicate hs.length (some (.str av.moonIllum))),
    ("moonrise", List.replicate hs.length (some (.str av.moonrise))),
    ("moonset", List.replicate hs.length (some (.str av.moonset))),
    ("sunrise", List.replicate hs.length (some (.str av.sunrise))),
    ("sunset", List.replicate hs.length (some (.str av.sunset))),
    ("DewPointC", hs.map fun h => some (.str h.dewPointC)),
    ("FeelsLikeC", hs.map fun h => some (.str h.feelsLikeC)),
    ("HeatIndexC", hs.map fun h => some (.str h.heatIndexC)),
    ("WindChillC", hs.map fun h => some (.str h.windChillC)),
    ("WindGustKmph", hs.map fun h => some (.str h.windGustKmph)),
    ("cloudcover", hs.map fun h => some (.str h.cloudcover)),
    ("humidity", hs.map fun h => some (.str h.humidity)),
    ("precipMM", hs.map fun h => some (.str h.precipMM)),
    ("pressure", hs.map fun h => some (.str h.pressure)),
    ("tempC", hs.map fun h => some (.str h.tempC)),
    ("visibility", hs.map fun h => some (.str h.visibility)),
    ("winddirDegree", hs.map fun h => some (.str h.winddirDegree)),
    ("windspeedKmph", hs.map fun h => some (.str h.windspeedKmph))]⟩

/-! ### Computation lemmas for the flattening pipeline -/

theorem pad_self {c : List (Option PyVal)} {n : Nat} (h : c.length = n) :
    pad n c = c := by
  unfold pad
  rw [h, Nat.sub_self, List.replicate_zero, List.append_nil, ← h, List.take_length]

theorem pad_one {n : Nat} (h : 1 ≤ n) (x : Option PyVal) :
    pad n [x] = x :: List.replicate (n - 1) none := by
  unfold pad
  cases n with
  | zero => omega
  | succ m => simp [List.take_cons]

theorem ffillCol_replicate_none (v : PyVal) (m : Nat) :
    ffillCol (some v) (List.replicate m none) = List.replicate m (some v) := by
  induction m with
  | zero => rfl
  | succ m ih => simp [List.replicate_succ, ffillCol, ih]

theorem ffillCol_bcast (v : PyVal) (m : Nat) :
    ffillCol none (some v :: List.replicate m none) =
      some v :: List.replicate m (some v) := by
  simp [ffillCol, ffillCol_replicate_none]

theorem ffillCol_map_some {α : Type} (f : α → PyVal) (z : Option PyVal) :
    ∀ l : List α, ffillCol z (l.map fun x => some (f x)) = l.map fun x => some (f x)
  | [] => rfl
  | x :: t => by simp [ffillCol, ffillCol_map_some f (some (f x)) t]

theorem applyZfillCol_map {α : Type} (f : α → String) :
    ∀ l : List α, applyZfillCol (l.map fun x => some (.str (f x))) =
      .ok (l.map fun x => some (.str (zfill 4 (f x))))
  | [] => rfl
  | x :: t => by
    simp only [List.map_cons, applyZfillCol, applyZfillCol_map f t]
    rfl

theorem strSliceCol_map {α : Type} (f : α → String) (l : List α) :
    strSliceCol 2 (l.map fun x => some (.str (f x))) =
      l.map fun x => some (.str (strTake 2 (f x))) := by
  unfold strSliceCol
  rw [List.map_map]
  rfl

theorem combineDateTimeCol_bcast {α : Type} (d : String) (f : α → String) :
    ∀ l : List α, (∀ x ∈ l, (parseTS (d ++ " " ++ f x)).isSome) →
      combineDateTimeCol (List.replicate l.length (some (.str d)))
        (l.map fun x => some (.str (f x))) =
      .ok (l.map fun x => (parseTS (d ++ " " ++ f x)).map fun p => PyVal.dt p.1 p.2)
  | [], _ => rfl
  | x :: t, hp => by
    obtain ⟨q, hq⟩ := Option.isSome_iff_exists.mp (hp x (List.mem_cons_self x t))
    simp only [List.length_cons, List.replicate_succ, List.map_cons,
      combineDateTimeCol, combineCell, hq,
      combineDateTimeCol_bcast d f t (fun y hy => hp y (List.mem_cons_of_mem x hy))]
    rfl

/-- Column names of a well-formed hourly record, in order. -/
def hourColNames : List String :=
  ["time", "DewPointC", "FeelsLikeC", "HeatIndexC", "WindChillC",
   "WindGustKmph", "cloudcover", "humidity", "precipMM", "pressure",
   "tempC", "visibility", "winddirDegree", "windspeedKmph"]

/-- Columns of `pd.DataFrame(d['hourly'])` for a well-formed record. -/
def hourCols (hs : List HourVals) : List (String × List (Option PyVal)) :=
  [("time", hs.map fun h => some (.str h.time)),
   ("DewPointC", hs.map fun h => some (.str h.dewPointC)),
   ("FeelsLikeC", hs.map fun h => some (.str h.feelsLikeC)),
   ("HeatIndexC", hs.map fun h => some (.str h.heatIndexC)),
   ("WindChillC", hs.map fun h => some (.str h.windChillC)),
   ("WindGustKmph", hs.map fun h => some (.str h.windGustKmph)),
   ("cloudcover", hs.map fun h => some (.str h.cloudcover)),
   ("humidity", hs.map fun h => some (.str h.humidity)),
   ("precipMM", hs.map fun h => some (.str h.precipMM)),
   ("pressure", hs.map fun h => some (.str h.pressure)),
   ("tempC", hs.map fun h => some (.str h.tempC)),
   ("visibility", hs.map fun h => some (.str h.visibility)),
   ("winddirDegree", hs.map fun h => some (.str h.winddirDegree)),
   ("windspeedKmph", hs.map fun h => some (.str h.windspeedKmph))]

theorem recordKeys_stable :
    ∀ (rs : List (List (String × String))) (acc : List String),
      (∀ r ∈ rs, ∀ k ∈ r.map Prod.fst, k ∈ acc) →
      List.foldl (fun acc r =>
        acc ++ (r.map Prod.fst).filter (fun k => decide (¬ k ∈ acc))) acc rs = acc := by
  intro rs
  induction rs with
  | nil => intro acc _; rfl
  | cons r t ih =>
    intro acc h
    have h1 : (r.map Prod.fst).filter (fun k => decide (¬ k ∈ acc)) = [] := by
      rw [List.filter_eq_nil_iff]
      intro k hk
      simp [h r (List.mem_cons_self r t) k hk]
    rw [List.foldl_cons, h1, List.append_nil]
    exact ih acc (fun r' hr' => h r' (List.mem_cons_of_mem _ hr'))

theorem recordKeys_hours (h0 : HourVals) (ht : List HourVals) :
    recordKeys ((h0 :: ht).map HourVals.record) = hourColNames := by
  unfold recordKeys
  rw [List.map_cons, List.foldl_cons]
  show List.foldl _ hourColNames (ht.map HourVals.record) = hourColNames
  apply recordKeys_stable
  intro r hr k hk
  obtain ⟨h', -, rfl⟩ := List.mem_map.mp hr
  exact hk

theorem ofRecords_hours (h0 : HourVals) (ht : List HourVals) :
    ofRecords ((h0 :: ht).map HourVals.record) =
      ⟨ht.length + 1, hourCols (h0 :: ht)⟩ := by
  unfold ofRecords
  rw [recordKeys_hours]
  simp only [List.length_map, List.length_cons]
  show Frame.mk _ (hourColNames.map fun k =>
    (k, ((h0 :: ht).map HourVals.record).map fun r => (List.lookup k r).map PyVal.str)) = _
  simp only [List.map_map]
  rfl

/-! ### Stage shapes of the flattening pipeline on a well-formed record

The frames the pipeline builds all consist of the eleven day/astronomy
columns (each a broadcast of one value), the `time` column, and the
thirteen remaining hourly columns; only the broadcast shape and the
`time` cells change from stage to stage. -/

/-- The eleven day-level and astronomy columns, each built from a single
value by the cell constructor `c`. -/
def dayAstroCols (dv : DayVals) (av : AstroVals)
    (c : String → List (Option PyVal)) : List (String × List (Option PyVal)) :=
  [("date", c dv.date), ("maxtempC", c dv.maxtempC), ("mintempC", c dv.mintempC),
   ("totalSnow_cm", c dv.totalSnowCm), ("sunHour", c dv.sunHour),
   ("uvIndex", c dv.uvIndex), ("moon_illumination", c av.moonIllum),
   ("moonrise", c av.moonrise), ("moonset", c av.moonset),
   ("sunrise", c av.sunrise), ("sunset", c av.sunset)]

/-- The thirteen hourly columns other than `time`, each built by `hc`. -/
def hourTailCols (hc : (HourVals → String) → List (Option PyVal)) :
    List (String × List (Option PyVal)) :=
  [("DewPointC", hc HourVals.dewPointC), ("FeelsLikeC", hc HourVals.feelsLikeC),
   ("HeatIndexC", hc HourVals.heatIndexC), ("WindChillC", hc HourVals.windChillC),
   ("WindGustKmph", hc HourVals.windGustKmph), ("cloudcover", hc HourVals.cloudcover),
   ("humidity", hc HourVals.humidity), ("precipMM", hc HourVals.precipMM),
   ("pressure", hc HourVals.pressure), ("tempC", hc HourVals.tempC),
   ("visibility", hc HourVals.visibility), ("winddirDegree", hc HourVals.winddirDegree),
   ("windspeedKmph", hc HourVals.windspeedKmph)]

/-- The 25-column shape of the concatenated/filled frame. -/
def wfCols (dv : DayVals) (av : AstroVals) (c : String → List (Option PyVal))
    (timeC : List (Option PyVal)) (hc : (HourVals → String) → List (Option PyVal)) :
    List (String × List (Option PyVal)) :=
  dayAstroCols dv av c ++ ("time", timeC) :: hourTailCols hc

/-- The 24 selected columns, in `columns_required` order. -/
def selCols (dv : DayVals) (av : AstroVals) (c : String → List (Option PyVal))
    (hc : (HourVals → String) → List (Option PyVal)) (dt : List (Option PyVal)) :
    List (String × List (Option PyVal)) :=
  ("date_time", dt) :: ("maxtempC", c dv.maxtempC) :: ("mintempC", c dv.mintempC) ::
  ("totalSnow_cm", c dv.totalSnowCm) :: ("sunHour", c dv.sunHour) ::
  ("uvIndex", c dv.uvIndex) :: ("moon_illumination", c av.moonIllum) ::
  ("moonrise", c av.moonrise) :: ("moonset", c av.moonset) ::
  ("sunrise", c av.sunrise) :: ("sunset", c av.sunset) :: hourTailCols hc

theorem pad_succ_single (m : Nat) (x : Option PyVal) :
    pad (m + 1) [x] = x :: List.replicate m none := by
  unfold pad
  simp

theorem pad_map_cons {α : Type} (f : α → Option PyVal) (x : α) (t : List α) :
    pad (t.length + 1) ((x :: t).map f) = (x :: t).map f :=
  pad_self (by simp)

theorem pad_cons_map {α : Type} (f : α → Option PyVal) (y : Option PyVal)
    (t : List α) :
    pad (t.length + 1) (y :: t.map f) = y :: t.map f :=
  pad_self (by simp)

theorem ffillCol_cons_map {α : Type} (f : α → PyVal) (z : Option PyVal)
    (v : PyVal) (t : List α) :
    ffillCol z (some v :: t.map fun x => some (f x)) =
      some v :: t.map fun x => some (f x) := by
  simp [ffillCol, ffillCol_map_some]

theorem getCol_wf_time (n : Nat) (dv : DayVals) (av : AstroVals)
    (c : String → List (Option PyVal)) (timeC : List (Option PyVal))
    (hc : (HourVals → String) → List (Option PyVal)) :
    getCol ⟨n, wfCols dv av c timeC hc⟩ "time" = some timeC := rfl

theorem getCol_wf_date (n : Nat) (dv : DayVals) (av : AstroVals)
    (c : String → List (Option PyVal)) (timeC : List (Option PyVal))
    (hc : (HourVals → String) → List (Option PyVal)) :
    getCol ⟨n, wfCols dv av c timeC hc⟩ "date" = some (c dv.date) := rfl

theorem setCol_wf_time (n : Nat) (dv : DayVals) (av : AstroVals)
    (c : String → List (Option PyVal)) (timeC newC : List (Option PyVal))
    (hc : (HourVals → String) → List (Option PyVal)) :
    setCol ⟨n, wfCols dv av c timeC hc⟩ "time" newC =
      ⟨n, wfCols dv av c newC hc⟩ := rfl

theorem setCol_wf_dt (n : Nat) (dv : DayVals) (av : AstroVals)
    (c : String → List (Option PyVal)) (timeC dt : List (Option PyVal))
    (hc : (HourVals → String) → List (Option PyVal)) :
    setCol ⟨n, wfCols dv av c timeC hc⟩ "date_time" dt =
      ⟨n, wfCols dv av c timeC hc ++ [("date_time", dt)]⟩ := rfl

theorem selectCols_wf (n : Nat) (dv : DayVals) (av : AstroVals)
    (c : String → List (Option PyVal)) (timeC dt : List (Option PyVal))
    (hc : (HourVals → String) → List (Option PyVal)) :
    selectCols ⟨n, wfCols dv av c timeC hc ++ [("date_time", dt)]⟩ columnsRequired =
      .ok ⟨n, selCols dv av c hc dt⟩ := rfl

theorem dedupCols_wf (n : Nat) (dv : DayVals) (av : AstroVals)
    (c : String → List (Option PyVal))
    (hc : (HourVals → String) → List (Option PyVal)) (dt : List (Option PyVal)) :
    dedupCols ⟨n, selCols dv av c hc dt⟩ = ⟨n, selCols dv av c hc dt⟩ := rfl

theorem hconcat_weather_astro (dv : DayVals) (av : AstroVals) :
    hconcat (ofDict (requiredSubset dv.fields)) (ofRecords [av.record]) =
      ⟨1, dayAstroCols dv av fun v => [some (PyVal.str v)]⟩ := rfl

theorem hconcat_day_hours (dv : DayVals) (av : AstroVals) (h0 : HourVals)
    (ht : List HourVals) :
    hconcat ⟨1, dayAstroCols dv av fun v => [some (PyVal.str v)]⟩
      ⟨ht.length + 1, hourCols (h0 :: ht)⟩ =
    ⟨ht.length + 1,
      wfCols dv av (fun v => some (PyVal.str v) :: List.replicate ht.length none)
        ((h0 :: ht).map fun h => some (PyVal.str h.time))
        (fun f => (h0 :: ht).map fun h => some (PyVal.str (f h)))⟩ := by
  have hmax : (1 : Nat) ⊔ (ht.length + 1) = ht.length + 1 := by omega
  simp only [hconcat, hmax, dayAstroCols, hourCols, wfCols, hourTailCols,
    List.cons_append, List.nil_append, List.map_cons, List.map_nil,
    pad_succ_single, pad_map_cons, pad_cons_map]

theorem ffill_wf (dv : DayVals) (av : AstroVals) (h0 : HourVals)
    (ht : List HourVals) :
    ffill ⟨ht.length + 1,
      wfCols dv av (fun v => some (PyVal.str v) :: List.replicate ht.length none)
        ((h0 :: ht).map fun h => some (PyVal.str h.time))
        (fun f => (h0 :: ht).map fun h => some (PyVal.str (f h)))⟩ =
    ⟨ht.length + 1,
      wfCols dv av
        (fun v => some (PyVal.str v) :: List.replicate ht.length (some (PyVal.str v)))
        ((h0 :: ht).map fun h => some (PyVal.str h.time))
        (fun f => (h0 :: ht).map fun h => some (PyVal.str (f h)))⟩ := by
  simp only [ffill, wfCols, dayAstroCols, hourTailCols, List.cons_append,
    List.nil_append, List.map_cons, List.map_nil, List.map_append,
    ffillCol_bcast, ffillCol_map_some, ffillCol_cons_map]

set_option maxHeartbeats 4000000 in
/-- Master computation: `_extract_data`'s day-loop body on a well-formed
day record with at least one hourly sub-record flattens to exactly the
`stdFrame` table, provided every derived `date + hour` string parses
(otherwise `pd.to_datetime` would raise). -/
theorem extractDay_std (dv : DayVals) (av : AstroVals) (h0 : HourVals)
    (ht : List HourVals)
    (hp : ∀ h ∈ h0 :: ht,
      (parseTS (dv.date ++ " " ++ strTake 2 (zfill 4 h.time))).isSome) :
    extractDay (stdDay dv av (h0 :: ht)) = .ok (stdFrame dv av (h0 :: ht)) := by
  have hcomb := combineDateTimeCol_bcast dv.date
    (fun h => strTake 2 (zfill 4 h.time)) (h0 :: ht) hp
  have hrepl : (some (PyVal.str dv.date) ::
      List.replicate ht.length (some (PyVal.str dv.date))) =
      List.replicate (h0 :: ht).length (some (PyVal.str dv.date)) := rfl
  simp only [extractDay, stdDay, ofRecords_hours, hconcat_weather_astro,
    hconcat_day_hours, ffill_wf, getCol_wf_time, applyZfillCol_map,
    setCol_wf_time, strSliceCol_map, getCol_wf_date, hrepl, hcomb,
    setCol_wf_dt, selectCols_wf, dedupCols_wf]
  rfl

/-- The ten day-level/astronomy column names that the claimed broadcast
covers (all of `columns_required` except the timestamp and the hourly
fields). -/
def dayAstroBroadcastNames : List String :=
  ["maxtempC", "mintempC", "totalSnow_cm", "sunHour", "uvIndex",
   "moon_illumination", "moonrise", "moonset", "sunrise", "sunset"]

/-- The thirteen hourly columns with their field selectors. -/
def hourFieldSel : List (String × (HourVals → String)) :=
  [("DewPointC", HourVals.dewPointC), ("FeelsLikeC", HourVals.feelsLikeC),
   ("HeatIndexC", HourVals.heatIndexC), ("WindChillC", HourVals.windChillC),
   ("WindGustKmph", HourVals.windGustKmph), ("cloudcover", HourVals.cloudcover),
   ("humidity", HourVals.humidity), ("precipMM", HourVals.precipMM),
   ("pressure", HourVals.pressure), ("tempC", HourVals.tempC),
   ("visibility", HourVals.visibility), ("winddirDegree", HourVals.winddirDegree),
   ("windspeedKmph", HourVals.windspeedKmph)]

/-- C6: flattening a well-formed day record with `N ≥ 1` hourly
sub-records succeeds and produces exactly `N` rows; every day-level and
astronomy column is one value broadcast to all `N` rows; every hourly
column carries its row's own hourly value. -/
theorem c6_flatten_one_row_per_hour (dv : DayVals) (av : AstroVals)
    (h0 : HourVals) (ht : List HourVals)
    (hp : ∀ h ∈ h0 :: ht,
      (parseTS (dv.date ++ " " ++ strTake 2 (zfill 4 h.time))).isSome) :
    extractDay (stdDay dv av (h0 :: ht)) = .ok (stdFrame dv av (h0 :: ht)) ∧
    (stdFrame dv av (h0 :: ht)).nrows = (h0 :: ht).length ∧
    (∀ kc ∈ (stdFrame dv av (h0 :: ht)).cols, kc.2.length = (h0 :: ht).length) ∧
    (∀ k ∈ dayAstroBroadcastNames, ∃ v, getCol (stdFrame dv av (h0 :: ht)) k =
      some (List.replicate (h0 :: ht).length v)) ∧
    (∀ p ∈ hourFieldSel, getCol (stdFrame dv av (h0 :: ht)) p.1 =
      some ((h0 :: ht).map fun h => some (PyVal.str (p.2 h)))) := by
  refine ⟨extractDay_std dv av h0 ht hp, rfl, ?_, ?_, ?_⟩
  · intro kc hkc
    fin_cases hkc <;> simp
  · intro k hk
    fin_cases hk <;> exact ⟨_, rfl⟩
  · intro p hp'
    fin_cases hp' <;> rfl

/-- Concrete well-formed inputs for witnesses. -/
def wDay : DayVals := ⟨"2020-01-01", "8", "4", "0.0", "5.3", "1"⟩

def wAstro : AstroVals := ⟨"61", "07:01 PM", "07:53 AM", "08:05 AM", "04:03 PM"⟩

def wHour (t : String) : HourVals :=
  ⟨t, "4", "5", "7", "5", "20", "65", "82", "0.1", "1016", "7", "9", "219", "13"⟩

theorem c6_flatten_one_row_per_hour_witness :
    (∀ h ∈ [wHour "900"],
      (parseTS (wDay.date ++ " " ++ strTake 2 (zfill 4 h.time))).isSome) ∧
    (extractDay (stdDay wDay wAstro [wHour "900"]) =
        .ok (stdFrame wDay wAstro [wHour "900"]) ∧
      (stdFrame wDay wAstro [wHour "900"]).nrows = ([wHour "900"] : List HourVals).length ∧
      (∀ kc ∈ (stdFrame wDay wAstro [wHour "900"]).cols,
        kc.2.length = ([wHour "900"] : List HourVals).length) ∧
      (∀ k ∈ dayAstroBroadcastNames, ∃ v, getCol (stdFrame wDay wAstro [wHour "900"]) k =
        some (List.replicate ([wHour "900"] : List HourVals).length v)) ∧
      (∀ p ∈ hourFieldSel, getCol (stdFrame wDay wAstro [wHour "900"]) p.1 =
        some (([wHour "900"] : List HourVals).map fun h => some (PyVal.str (p.2 h))))) :=
  ⟨by decide, c6_flatten_one_row_per_hour wDay wAstro (wHour "900") [] (by decide)⟩

/-- C7: the timestamp column of the flattened table is, row by row,
obtained by left-zero-padding the hourly `time` string to four digits,
taking the first two characters as the hour, and parsing it together
with the day's `date` into a single timestamp (discarding sub-hour
precision). -/
theorem c7_timestamp_derivation (dv : DayVals) (av : AstroVals)
    (h0 : HourVals) (ht : List HourVals)
    (hp : ∀ h ∈ h0 :: ht,
      (parseTS (dv.date ++ " " ++ strTake 2 (zfill 4 h.time))).isSome) :
    (extractDay (stdDay dv av (h0 :: ht))).toOption.bind
      (fun f => getCol f "date_time") =
    some ((h0 :: ht).map fun h =>
      (parseTS (dv.date ++ " " ++ strTake 2 (zfill 4 h.time))).map
        fun p => PyVal.dt p.1 p.2) := by
  rw [extractDay_std dv av h0 ht hp]
  rfl

theorem c7_timestamp_derivation_witness :
    (∀ h ∈ [wHour "900"],
      (parseTS (wDay.date ++ " " ++ strTake 2 (zfill 4 h.time))).isSome) ∧
    ((extractDay (stdDay wDay wAstro [wHour "900"])).toOption.bind
        (fun f => getCol f "date_time") =
      some (([wHour "900"] : List HourVals).map fun h =>
        (parseTS (wDay.date ++ " " ++ strTake 2 (zfill 4 h.time))).map
          fun p => PyVal.dt p.1 p.2)) ∧
    (parseTS ("2020-01-01" ++ " " ++ strTake 2 (zfill 4 "900"))).map
        (fun p => PyVal.dt p.1 p.2) = some (PyVal.dt ⟨2020, 1, 1⟩ 9) :=
  ⟨by decide,
    c7_timestamp_derivation wDay wAstro (wHour "900") [] (by decide),
    by decide⟩

/-! ### Day records missing one required scalar field

The subset step at line 95 silently omits the absent key, but the column
selection at line 111 then asks for that label, which no block supplies,
raising `KeyError` (pandas ≥ 1.0 list-label selection).  The construction
is parameterised by which of the five non-`date` required scalar fields
is absent. -/

/-- One of the five required daily scalar fields other than `date`. -/
inductive MissingScalar where
  | maxT
  | minT
  | snow
  | sun
  | uv
deriving DecidableEq, Repr

/-- The column label of the missing scalar field. -/
def missingName : MissingScalar → String
  | .maxT => "maxtempC"
  | .minT => "mintempC"
  | .snow => "totalSnow_cm"
  | .sun => "sunHour"
  | .uv => "uvIndex"

/-- The day-level fields with the field `i` absent. -/
def fieldsMissing : MissingScalar → DayVals → List (String × String)
  | .maxT, v => [("date", v.date), ("mintempC", v.mintempC),
      ("totalSnow_cm", v.totalSnowCm), ("sunHour", v.sunHour), ("uvIndex", v.uvIndex)]
  | .minT, v => [("date", v.date), ("maxtempC", v.maxtempC),
      ("totalSnow_cm", v.totalSnowCm), ("sunHour", v.sunHour), ("uvIndex", v.uvIndex)]
  | .snow, v => [("date", v.date), ("maxtempC", v.maxtempC),
      ("mintempC", v.mintempC), ("sunHour", v.sunHour), ("uvIndex", v.uvIndex)]
  | .sun, v => [("date", v.date), ("maxtempC", v.maxtempC),
      ("mintempC", v.mintempC), ("totalSnow_cm", v.totalSnowCm), ("uvIndex", v.uvIndex)]
  | .uv, v => [("date", v.date), ("maxtempC", v.maxtempC),
      ("mintempC", v.mintempC), ("totalSnow_cm", v.totalSnowCm), ("sunHour", v.sunHour)]

/-- A well-formed day record except that scalar field `i` is absent. -/
def stdDayMissing (i : MissingScalar) (dv : DayVals) (av : AstroVals)
    (hs : List HourVals) : DayRecord :=
  ⟨fieldsMissing i dv, some [av.record], some (hs.map HourVals.record)⟩

/-- The ten remaining day-level/astronomy columns when field `i` is
absent, each built by the cell constructor `c`. -/
def dayAstroColsMissing (i : MissingScalar) (dv : DayVals) (av : AstroVals)
    (c : String → List (Option PyVal)) : List (String × List (Option PyVal)) :=
  ((fieldsMissing i dv).map fun p => (p.1, c p.2)) ++
  [("moon_illumination", c av.moonIllum), ("moonrise", c av.moonrise),
   ("moonset", c av.moonset), ("sunrise", c av.sunrise), ("sunset", c av.sunset)]

/-- The 24-column shape of the concatenated/filled frame when field `i`
is absent. -/
def wfColsMissing (i : MissingScalar) (dv : DayVals) (av : AstroVals)
    (c : String → List (Option PyVal)) (timeC : List (Option PyVal))
    (hc : (HourVals → String) → List (Option PyVal)) :
    List (String × List (Option PyVal)) :=
  dayAstroColsMissing i dv av c ++ ("time", timeC) :: hourTailCols hc

theorem hconcat_weather_astro_missing (i : MissingScalar) (dv : DayVals)
    (av : AstroVals) :
    hconcat (ofDict (requiredSubset (fieldsMissing i dv))) (ofRecords [av.record]) =
      ⟨1, dayAstroColsMissing i dv av fun v => [some (PyVal.str v)]⟩ := by
  cases i <;> rfl

theorem hconcat_day_hours_missing (i : MissingScalar) (dv : DayVals)
    (av : AstroVals) (h0 : HourVals) (ht : List HourVals) :
    hconcat ⟨1, dayAstroColsMissing i dv av fun v => [some (PyVal.str v)]⟩
      ⟨ht.length + 1, hourCols (h0 :: ht)⟩ =
    ⟨ht.length + 1,
      wfColsMissing i dv av
        (fun v => some (PyVal.str v) :: List.replicate ht.length none)
        ((h0 :: ht).map fun h => some (PyVal.str h.time))
        (fun f => (h0 :: ht).map fun h => some (PyVal.str (f h)))⟩ := by
  have hmax : (1 : Nat) ⊔ (ht.length + 1) = ht.length + 1 := by omega
  cases i <;>
    simp only [hconcat, hmax, dayAstroColsMissing, fieldsMissing, hourCols,
      wfColsMissing, hourTailCols, List.cons_append, List.nil_append,
      List.map_cons, List.map_nil, pad_succ_single, pad_map_cons, pad_cons_map]

theorem ffill_wf_missing (i : MissingScalar) (dv : DayVals) (av : AstroVals)
    (h0 : HourVals) (ht : List HourVals) :
    ffill ⟨ht.length + 1,
      wfColsMissing i dv av
        (fun v => some (PyVal.str v) :: List.replicate ht.length none)
        ((h0 :: ht).map fun h => some (PyVal.str h.time))
        (fun f => (h0 :: ht).map fun h => some (PyVal.str (f h)))⟩ =
    ⟨ht.length + 1,
      wfColsMissing i dv av
        (fun v => some (PyVal.str v) :: List.replicate ht.length (some (PyVal.str v)))
        ((h0 :: ht).map fun h => some (PyVal.str h.time))
        (fun f => (h0 :: ht).map fun h => some (PyVal.str (f h)))⟩ := by
  cases i <;>
    simp only [ffill, wfColsMissing, dayAstroColsMissing, fieldsMissing,
      hourTailCols, List.cons_append, List.nil_append, List.map_cons,
      List.map_nil, List.map_append, ffillCol_bcast, ffillCol_map_some,
      ffillCol_cons_map]

theorem getCol_wfMissing_time (i : MissingScalar) (n : Nat) (dv : DayVals)
    (av : AstroVals) (c : String → List (Option PyVal))
    (timeC : List (Option PyVal))
    (hc : (HourVals → String) → List (Option PyVal)) :
    getCol ⟨n, wfColsMissing i dv av c timeC hc⟩ "time" = some timeC := by
  cases i <;> rfl

theorem getCol_wfMissing_date (i : MissingScalar) (n : Nat) (dv : DayVals)
    (av : AstroVals) (c : String → List (Option PyVal))
    (timeC : List (Option PyVal))
    (hc : (HourVals → String) → List (Option PyVal)) :
    getCol ⟨n, wfColsMissing i dv av c timeC hc⟩ "date" = some (c dv.date) := by
  cases i <;> rfl

theorem setCol_wfMissing_time (i : MissingScalar) (n : Nat) (dv : DayVals)
    (av : AstroVals) (c : String → List (Option PyVal))
    (timeC newC : List (Option PyVal))
    (hc : (HourVals → String) → List (Option PyVal)) :
    setCol ⟨n, wfColsMissing i dv av c timeC hc⟩ "time" newC =
      ⟨n, wfColsMissing i dv av c newC hc⟩ := by
  cases i <;> rfl

theorem setCol_wfMissing_dt (i : MissingScalar) (n : Nat) (dv : DayVals)
    (av : AstroVals) (c : String → List (Option PyVal))
    (timeC dt : List (Option PyVal))
    (hc : (HourVals → String) → List (Option PyVal)) :
    setCol ⟨n, wfColsMissing i dv av c timeC hc⟩ "date_time" dt =
      ⟨n, wfColsMissing i dv av c timeC hc ++ [("date_time", dt)]⟩ := by
  cases i <;> rfl

/-- With scalar field `i` absent from every block,
`data[columns_required]` raises `KeyError` naming that field (the first
— and only — requested label with no matching column). -/
theorem selectCols_wfMissing (i : MissingScalar) (n : Nat) (dv : DayVals)
    (av : AstroVals) (c : String → List (Option PyVal))
    (timeC dt : List (Option PyVal))
    (hc : (HourVals → String) → List (Option PyVal)) :
    selectCols ⟨n, wfColsMissing i dv av c timeC hc ++ [("date_time", dt)]⟩
      columnsRequired = .error (.keyError (missingName i)) := by
  cases i <;> rfl

set_option maxHeartbeats 4000000 in
/-- Flattening a day record that lacks any one of the five non-`date`
required scalar fields (but is otherwise well formed) reaches the
column-selection step and fails there with a `KeyError` naming the
absent field. -/
theorem extractDay_missing (i : MissingScalar) (dv : DayVals) (av : AstroVals)
    (h0 : HourVals) (ht : List HourVals)
    (hp : ∀ h ∈ h0 :: ht,
      (parseTS (dv.date ++ " " ++ strTake 2 (zfill 4 h.time))).isSome) :
    extractDay (stdDayMissing i dv av (h0 :: ht)) =
      .error (.keyError (missingName i)) := by
  have hcomb := combineDateTimeCol_bcast dv.date
    (fun h => strTake 2 (zfill 4 h.time)) (h0 :: ht) hp
  have hrepl : (some (PyVal.str dv.date) ::
      List.replicate ht.length (some (PyVal.str dv.date))) =
      List.replicate (h0 :: ht).length (some (PyVal.str dv.date)) := rfl
  simp only [extractDay, stdDayMissing, ofRecords_hours,
    hconcat_weather_astro_missing, hconcat_day_hours_missing, ffill_wf_missing,
    getCol_wfMissing_time, applyZfillCol_map, setCol_wfMissing_time,
    strSliceCol_map, getCol_wfMissing_date, hrepl, hcomb, setCol_wfMissing_dt,
    selectCols_wfMissing]

/-! ### Day records missing `hourly` or `date`  -/

def DayVals.fieldsNoDate (v : DayVals) : List (String × String) :=
  [("maxtempC", v.maxtempC), ("mintempC", v.mintempC),
   ("totalSnow_cm", v.totalSnowCm), ("sunHour", v.sunHour), ("uvIndex", v.uvIndex)]

/-- A well-formed day record except that `date` is absent. -/
def stdDayNoDate (dv : DayVals) (av : AstroVals) (hs : List HourVals) : DayRecord :=
  ⟨dv.fieldsNoDate, some [av.record], some (hs.map HourVals.record)⟩

def dayAstroColsNoDate (dv : DayVals) (av : AstroVals)
    (c : String → List (Option PyVal)) : List (String × List (Option PyVal)) :=
  [("maxtempC", c dv.maxtempC), ("mintempC", c dv.mintempC),
   ("totalSnow_cm", c dv.totalSnowCm), ("sunHour", c dv.sunHour),
   ("uvIndex", c dv.uvIndex), ("moon_illumination", c av.moonIllum),
   ("moonrise", c av.moonrise), ("moonset", c av.moonset),
   ("sunrise", c av.sunrise), ("sunset", c av.sunset)]

def wfColsNoDate (dv : DayVals) (av : AstroVals) (c : String → List (Option PyVal))
    (timeC : List (Option PyVal)) (hc : (HourVals → String) → List (Option PyVal)) :
    List (String × List (Option PyVal)) :=
  dayAstroColsNoDate dv av c ++ ("time", timeC) :: hourTailCols hc

theorem hconcat_weather_astro_noDate (dv : DayVals) (av : AstroVals) :
    hconcat (ofDict (requiredSubset dv.fieldsNoDate)) (ofRecords [av.record]) =
      ⟨1, dayAstroColsNoDate dv av fun v => [some (PyVal.str v)]⟩ := rfl

theorem hconcat_day_hours_noDate (dv : DayVals) (av : AstroVals) (h0 : HourVals)
    (ht : List HourVals) :
    hconcat ⟨1, dayAstroColsNoDate dv av fun v => [some (PyVal.str v)]⟩
      ⟨ht.length + 1, hourCols (h0 :: ht)⟩ =
    ⟨ht.length + 1,
      wfColsNoDate dv av (fun v => some (PyVal.str v) :: List.replicate ht.length none)
        ((h0 :: ht).map fun h => some (PyVal.str h.time))
        (fun f => (h0 :: ht).map fun h => some (PyVal.str (f h)))⟩ := by
  have hmax : (1 : Nat) ⊔ (ht.length + 1) = ht.length + 1 := by omega
  simp only [hconcat, hmax, dayAstroColsNoDate, hourCols, wfColsNoDate, hourTailCols,
    List.cons_append, List.nil_append, List.map_cons, List.map_nil,
    pad_succ_single, pad_map_cons, pad_cons_map]

theorem ffill_wf_noDate (dv : DayVals) (av : AstroVals) (h0 : HourVals)
    (ht : List HourVals) :
    ffill ⟨ht.length + 1,
      wfColsNoDate dv av (fun v => some (PyVal.str v) :: List.replicate ht.length none)
        ((h0 :: ht).map fun h => some (PyVal.str h.time))
        (fun f => (h0 :: ht).map fun h => some (PyVal.str (f h)))⟩ =
    ⟨ht.length + 1,
      wfColsNoDate dv av
        (fun v => some (PyVal.str v) :: List.replicate ht.length (some (PyVal.str v)))
        ((h0 :: ht).map fun h => some (PyVal.str h.time))
        (fun f => (h0 :: ht).map fun h => some (PyVal.str (f h)))⟩ := by
  simp only [ffill, wfColsNoDate, dayAstroColsNoDate, hourTailCols, List.cons_append,
    List.nil_append, List.map_cons, List.map_nil, List.map_append,
    ffillCol_bcast, ffillCol_map_some, ffillCol_cons_map]

theorem getCol_wfNoDate_time (n : Nat) (dv : DayVals) (av : AstroVals)
    (c : String → List (Option PyVal)) (timeC : List (Option PyVal))
    (hc : (HourVals → String) → List (Option PyVal)) :
    getCol ⟨n, wfColsNoDate dv av c timeC hc⟩ "time" = some timeC := rfl

theorem setCol_wfNoDate_time (n : Nat) (dv : DayVals) (av : AstroVals)
    (c : String → List (Option PyVal)) (timeC newC : List (Option PyVal))
    (hc : (HourVals → String) → List (Option PyVal)) :
    setCol ⟨n, wfColsNoDate dv av c timeC hc⟩ "time" newC =
      ⟨n, wfColsNoDate dv av c newC hc⟩ := rfl

/-- With `date` absent from every block, `data['date']` at line 103
raises `KeyError('date')`. -/
theorem getCol_wfNoDate_date (n : Nat) (dv : DayVals) (av : AstroVals)
    (c : String → List (Option PyVal)) (timeC : List (Option PyVal))
    (hc : (HourVals → String) → List (Option PyVal)) :
    getCol ⟨n, wfColsNoDate dv av c timeC hc⟩ "date" = none := rfl

set_option maxHeartbeats 4000000 in
/-- Flattening a day record that lacks `date` (but is otherwise well
formed) fails at the `data['date']` subscript of line 103. -/
theorem extractDay_noDate (dv : DayVals) (av : AstroVals) (h0 : HourVals)
    (ht : List HourVals) :
    extractDay (stdDayNoDate dv av (h0 :: ht)) = .error (.keyError "date") := by
  simp only [extractDay, stdDayNoDate, ofRecords_hours, hconcat_weather_astro_noDate,
    hconcat_day_hours_noDate, ffill_wf_noDate, getCol_wfNoDate_time, applyZfillCol_map,
    setCol_wfNoDate_time, strSliceCol_map, getCol_wfNoDate_date]

/-- A day record with no `hourly` key at all makes the loop body raise
at the `d['hourly']` subscript (or at `d['astronomy']` when that is also
absent); either way flattening never returns a frame. -/
theorem extractDay_no_hourly {d : DayRecord} (h : d.hourly = none) :
    ∀ F, extractDay d ≠ .ok F := by
  intro F hF
  unfold extractDay at hF
  rcases ha : d.astronomy with - | a
  · rw [ha] at hF
    simp at hF
  · rw [ha, h] at hF
    simp at hF

/-- An extraction failure for any day in the list makes the whole
`_extract_data` call raise: no partial table survives. -/
theorem extractLoop_no_ok {d : DayRecord} (hno : ∀ F, extractDay d ≠ .ok F) :
    ∀ (ds : List DayRecord), d ∈ ds → ∀ (acc : Frame) (F : Frame),
      extractLoop ds acc ≠ .ok F := by
  intro ds
  induction ds with
  | nil => intro hd; cases hd
  | cons x t ih =>
    intro hd acc F hF
    unfold extractLoop at hF
    rcases hx : extractDay x with e | fx
    · rw [hx] at hF
      simp at hF
    · rw [hx] at hF
      rcases List.mem_cons.mp hd with rfl | hd'
      · exact hno fx hx
      · exact ih hd' _ F hF

/-! ## Timestamp order and per-chunk blocks (for C2) -/

/-- Strict chronological order on index cells: defined (only) between two
timestamp cells, ordering them by date, then hour. -/
def tsLt : Option PyVal → Option PyVal → Prop
  | some (.dt d1 h1), some (.dt d2 h2) => d1 < d2 ∨ (d1 = d2 ∧ h1 < h2)
  | _, _ => False

/-- An index cell that is a timestamp whose date lies in `[a, b]`. -/
def tsInRange (a b : Date) : Option PyVal → Prop
  | some (.dt d _) => a ≤ d ∧ d ≤ b
  | _ => False

/-- `ChainBlocks cl l`: `l` is the concatenation, chunk by chunk, of
blocks of cells, the block of chunk `(a, b)` being strictly ascending and
dated within `[a, b]`. -/
def ChainBlocks : List (Date × Date) → List (Option PyVal) → Prop
  | [], l => l = []
  | p :: ps, l => ∃ c l', l = c ++ l' ∧ c.Pairwise tsLt ∧
      (∀ x ∈ c, tsInRange p.1 p.2 x) ∧ ChainBlocks ps l'

theorem tsLt_ne {x y : Option PyVal} (h : tsLt x y) : x ≠ y := by
  rintro rfl
  rcases x with - | v
  · exact h
  · rcases v with s | ⟨d, hr⟩
    · exact h
    · rcases h with h | ⟨-, h⟩
      · exact Date.lt_irrefl _ h
      · omega

theorem tsLt_of_ranges {a1 b1 a2 b2 : Date} {x y : Option PyVal}
    (hx : tsInRange a1 b1 x) (hy : tsInRange a2 b2 y) (hlt : b1 < a2) :
    tsLt x y := by
  rcases x with - | vx
  · exact absurd hx (by simp [tsInRange])
  · rcases vx with s | ⟨dx, hrx⟩
    · exact absurd hx (by simp [tsInRange])
    · rcases y with - | vy
      · exact absurd hy (by simp [tsInRange])
      · rcases vy with s | ⟨dy, hry⟩
        · exact absurd hy (by simp [tsInRange])
        · obtain ⟨-, hx2⟩ := hx
          obtain ⟨hy1, -⟩ := hy
          exact Or.inl (Date.lt_of_le_of_lt hx2 (Date.lt_of_lt_of_le hlt hy1))

theorem chainBlocks_member_range :
    ∀ (ps : List (Date × Date)) (l : List (Option PyVal)), ChainBlocks ps l →
      ∀ y ∈ l, ∃ q ∈ ps, tsInRange q.1 q.2 y := by
  intro ps
  induction ps with
  | nil =>
    intro l hl y hy
    rw [hl] at hy
    cases hy
  | cons p t ih =>
    rintro l ⟨c, l', rfl, -, hrange, hrest⟩ y hy
    rcases List.mem_append.mp hy with hy | hy
    · exact ⟨p, List.mem_cons_self _ _, hrange y hy⟩
    · obtain ⟨q, hq, hqr⟩ := ih l' hrest y hy
      exact ⟨q, List.mem_cons_of_mem _ hq, hqr⟩

theorem chainBlocks_pairwise :
    ∀ (ps : List (Date × Date)) (l : List (Option PyVal)),
      List.Pairwise (fun p q : Date × Date => p.2 < q.1) ps →
      ChainBlocks ps l → l.Pairwise tsLt := by
  intro ps
  induction ps with
  | nil =>
    intro l _ hl
    rw [hl]
    exact List.Pairwise.nil
  | cons p t ih =>
    rintro l hpw ⟨c, l', rfl, hsorted, hrange, hrest⟩
    rw [List.pairwise_append]
    obtain ⟨hsep, hpw'⟩ := List.pairwise_cons.mp hpw
    refine ⟨hsorted, ih l' hpw' hrest, ?_⟩
    intro x hx y hy
    obtain ⟨q, hq, hqr⟩ := chainBlocks_member_range t l' hrest y hy
    exact tsLt_of_ranges (hrange x hx) hqr (hsep q hq)

/-! ### Association-list lemmas for column lookup -/

theorem mapAssoc_lookup {β : Type} :
    ∀ (L : List String) (f : String → β) (k : String), k ∈ L →
      List.lookup k (L.map fun k' => (k', f k')) = some (f k) := by
  intro L
  induction L with
  | nil => intro f k hk; cases hk
  | cons a t ih =>
    intro f k hk
    by_cases h : k = a
    · subst h
      simp [List.lookup]
    · rcases List.mem_cons.mp hk with rfl | hk'
      · exact absurd rfl h
      · simp only [List.map_cons, List.lookup,
          show (k == a) = false from beq_eq_false_iff_ne.mpr h]
        exact ih f k hk'

theorem mapAssoc_names {β : Type} (L : List String) (f : String → β) :
    (L.map fun k' => (k', f k')).map Prod.fst = L := by
  induction L with
  | nil => rfl
  | cons a t ih => simp only [List.map_cons, ih]

theorem lookup_append_some {β : Type} {k : String} {v : β} :
    ∀ {l1 : List (String × β)} (l2 : List (String × β)),
      List.lookup k l1 = some v → List.lookup k (l1 ++ l2) = some v := by
  intro l1
  induction l1 with
  | nil => intro l2 h; cases h
  | cons kc t ih =>
    intro l2 h
    rcases kc with ⟨k0, c0⟩
    by_cases he : k = k0
    · subst he
      simp only [List.lookup, beq_self_eq_true] at h ⊢
      exact h
    · simp only [List.cons_append, List.lookup, beq_eq_false_iff_ne, ne_eq] at h ⊢
      rw [show (k == k0) = false from beq_eq_false_iff_ne.mpr he] at h ⊢
      exact ih l2 h

theorem lookup_none_of_not_mem_names {β : Type} {k : String} :
    ∀ {l : List (String × β)}, k ∉ l.map Prod.fst → List.lookup k l = none := by
  intro l
  induction l with
  | nil => intro _; rfl
  | cons kc t ih =>
    intro h
    simp only [List.map_cons, List.mem_cons] at h
    push_neg at h
    simp only [List.lookup,
      show (k == kc.1) = false from beq_eq_false_iff_ne.mpr h.1]
    exact ih h.2

theorem lookup_isSome_filter_ne_nil {β : Type} {k : String} :
    ∀ {g : List (String × β)}, (List.lookup k g).isSome →
      g.filter (fun kc => kc.1 == k) ≠ [] := by
  intro g
  induction g with
  | nil => intro h; simp [List.lookup] at h
  | cons kc t ih =>
    intro h
    rcases kc with ⟨k0, c0⟩
    by_cases he : k = k0
    · subst he
      simp [List.filter_cons]
    · simp only [List.lookup,
        show (k == k0) = false from beq_eq_false_iff_ne.mpr he] at h
      simp only [List.filter_cons,
        show (k0 == k) = false from beq_eq_false_iff_ne.mpr (Ne.symm he)]
      exact ih h

/-! ### The flattened schema: every successful `extractDay` yields the
required column set -/

theorem selectCols_ok_elim {g : Frame} {ks : List String} {F : Frame}
    (h : selectCols g ks = .ok F) :
    (∀ k ∈ ks, (List.lookup k g.cols).isSome) ∧
    F = ⟨g.nrows, (ks.map fun k => g.cols.filter fun kc => kc.1 == k).flatten⟩ := by
  unfold selectCols at h
  rcases hf : ks.find? (fun k => (List.lookup k g.cols).isNone) with - | k0
  · rw [hf] at h
    simp only [Except.ok.injEq] at h
    refine ⟨?_, h.symm⟩
    intro k hk
    have hnot := List.find?_eq_none.mp hf k hk
    rcases hk0 : List.lookup k g.cols with - | v
    · rw [hk0] at hnot
      simp at hnot
    · rfl
  · rw [hf] at h
    simp at h

theorem dedupKeys_seen :
    ∀ (g1 l2 : List (String × List (Option PyVal))) (seen : List String),
      (∀ kc ∈ g1, kc.1 ∈ seen) → dedupKeys (g1 ++ l2) seen = dedupKeys l2 seen := by
  intro g1
  induction g1 with
  | nil => intro l2 seen _; rfl
  | cons kc t ih =>
    intro l2 seen h
    simp only [List.cons_append, dedupKeys]
    rw [if_pos (h kc (List.mem_cons_self _ _))]
    exact ih l2 seen (fun kc' h' => h kc' (List.mem_cons_of_mem _ h'))

theorem dedupKeys_names (g : List (String × List (Option PyVal))) :
    ∀ (ks seen : List String), ks.Nodup → (∀ k ∈ ks, k ∉ seen) →
      (∀ k ∈ ks, (List.lookup k g).isSome) →
      (dedupKeys ((ks.map fun k => g.filter fun kc => kc.1 == k).flatten) seen).map
        Prod.fst = ks := by
  intro ks
  induction ks with
  | nil => intro seen _ _ _; rfl
  | cons k t ih =>
    intro seen hnodup hseen hsome
    obtain ⟨hknt, hndt⟩ := List.nodup_cons.mp hnodup
    simp only [List.map_cons, List.flatten_cons]
    rcases hfil : g.filter (fun kc => kc.1 == k) with - | ⟨e0, g1⟩
    · exact absurd hfil
        (lookup_isSome_filter_ne_nil (hsome k (List.mem_cons_self _ _)))
    · have he0 : e0.1 = k := by
        have hm : e0 ∈ g.filter (fun kc => kc.1 == k) := by
          rw [hfil]; exact List.mem_cons_self _ _
        exact eq_of_beq (List.mem_filter.mp hm).2
      have hg1 : ∀ kc ∈ g1, kc.1 = k := by
        intro kc hkc
        have hm : kc ∈ g.filter (fun kc => kc.1 == k) := by
          rw [hfil]; exact List.mem_cons_of_mem _ hkc
        exact eq_of_beq (List.mem_filter.mp hm).2
      have hnotseen : ¬ e0.1 ∈ seen := by
        rw [he0]
        exact hseen k (List.mem_cons_self _ _)
      rw [hfil]
      simp only [List.cons_append, dedupKeys, List.append_eq]
      rw [if_neg hnotseen]
      rw [dedupKeys_seen g1 _ (e0.1 :: seen)
        (fun kc h' => by rw [hg1 kc h', ← he0]; exact List.mem_cons_self _ _)]
      simp only [List.map_cons, he0]
      congr 1
      refine ih (k :: seen) hndt ?_ ?_
      · intro k' hk' hc
        rcases List.mem_cons.mp hc with rfl | hc'
        · exact hknt hk'
        · exact hseen k' (List.mem_cons_of_mem _ hk') hc'
      · intro k' hk'
        exact hsome k' (List.mem_cons_of_mem _ hk')

set_option maxHeartbeats 1000000 in
/-- Whenever the day-loop body returns a frame, that frame's column
names are exactly `columns_required` (selection reorders to the required
list, then duplicate names collapse to the first occurrence). -/
theorem extractDay_ok_names {d : DayRecord} {f : Frame}
    (h : extractDay d = .ok f) : f.names = columnsRequired := by
  simp only [extractDay] at h
  split at h
  · exact Except.noConfusion h
  split at h
  · exact Except.noConfusion h
  split at h
  · exact Except.noConfusion h
  split at h
  · exact Except.noConfusion h
  split at h
  · exact Except.noConfusion h
  split at h
  · exact Except.noConfusion h
  split at h
  · exact Except.noConfusion h
  split at h
  · exact Except.noConfusion h
  split at h
  · exact Except.noConfusion h
  rename_i data7 hsel
  injection h with h2
  subst h2
  obtain ⟨hsome, hstruct⟩ := selectCols_ok_elim hsel
  rw [hstruct]
  show (dedupKeys _ []).map Prod.fst = columnsRequired
  exact dedupKeys_names _ columnsRequired [] (by decide)
    (by intro k _ hc; cases hc) hsome

/-! ### `pd.concat` (axis=0) schema and index lemmas -/

theorem vconcat_lookup (x y : Frame) (k : String)
    (hk : k ∈ x.names ++ y.names.filter fun k => decide (¬ k ∈ x.names)) :
    List.lookup k (vconcat x y).cols =
      some ((List.lookup k x.cols).getD (List.replicate x.nrows none) ++
        (List.lookup k y.cols).getD (List.replicate y.nrows none)) :=
  mapAssoc_lookup _ _ k hk

theorem vconcat_names (x y : Frame) :
    (vconcat x y).names =
      x.names ++ y.names.filter fun k => decide (¬ k ∈ x.names) := by
  show ((x.names ++ _).map fun k => (k, _)).map Prod.fst = _
  exact mapAssoc_names _ _

theorem vconcat_names_subset {x y : Frame} (h : ∀ k ∈ y.names, k ∈ x.names) :
    (vconcat x y).names = x.names := by
  rw [vconcat_names]
  have : (y.names.filter fun k => decide (¬ k ∈ x.names)) = [] := by
    rw [List.filter_eq_nil_iff]
    intro k hk
    simp [h k hk]
  rw [this, List.append_nil]

theorem vconcat_empty_names (y : Frame) :
    (vconcat emptyFrame y).names = y.names := by
  rw [vconcat_names]
  show List.nil ++ _ = _
  rw [List.nil_append, List.filter_eq_self.mpr]
  intro k _
  simp [emptyFrame, Frame.names]

/-- `data_this_month['city'] = city` on a frame of the required schema
appends the `city` column. -/
theorem addCity_elim {f : Frame} (h : f.names = columnsRequired) (city : String) :
    addCity f city =
      ⟨f.nrows, f.cols ++ [("city", List.replicate f.nrows (some (.str city)))]⟩ := by
  unfold addCity setCol
  have hn : List.lookup "city" f.cols = none := by
    apply lookup_none_of_not_mem_names
    show ¬ "city" ∈ f.names
    rw [h]
    decide
  rw [if_neg (by simp [hn])]

/-- Accumulated frames inside `_extract_data` are the empty initial
frame or carry the required schema. -/
theorem extractLoop_ok_names :
    ∀ (ds : List DayRecord) (acc F : Frame),
      (acc = emptyFrame ∨ acc.names = columnsRequired) →
      extractLoop ds acc = .ok F →
      F = emptyFrame ∨ F.names = columnsRequired := by
  intro ds
  induction ds with
  | nil =>
    intro acc F hacc h
    unfold extractLoop at h
    simp only [Except.ok.injEq] at h
    subst h
    exact hacc
  | cons d t ih =>
    intro acc F hacc h
    unfold extractLoop at h
    rcases hx : extractDay d with e | fx
    · rw [hx] at h; simp at h
    · rw [hx] at h
      refine ih (vconcat acc fx) F ?_ h
      right
      have hfx := extractDay_ok_names hx
      rcases hacc with rfl | hacc
      · rw [vconcat_empty_names, hfx]
      · rw [vconcat_names_subset]
        · exact hacc
        · intro k hk
          rw [hacc]
          rw [hfx] at hk
          exact hk

theorem extractData_ok_names {ds : List DayRecord} {F : Frame}
    (h : extractData ds = .ok F) : F = emptyFrame ∨ F.names = columnsRequired :=
  extractLoop_ok_names ds emptyFrame F (Or.inl rfl) h

/-- The month loop of `_retrieve_this_city`, run from an accumulator that
is either the initial empty frame or a frame of the tagged schema: when
every remaining sub-interval's fetch flattens successfully to a frame
whose `date_time` column is strictly ascending and dated within the
sub-interval, the loop returns a frame whose `date_time` column is the
accumulated index followed by the per-chunk blocks in order. -/
theorem retrieveLoop_sorted (city : String) (fetch : Date → Date → List DayRecord) :
    ∀ (cl : List (Date × Date)),
      (∀ p ∈ cl, ∃ (F : Frame) (c : List (Option PyVal)),
        extractData (fetch p.1 p.2) = .ok F ∧
        List.lookup "date_time" F.cols = some c ∧
        c.Pairwise tsLt ∧ (∀ x ∈ c, tsInRange p.1 p.2 x)) →
      ∀ (acc : Frame) (tr : List (Date × Date)) (accIdx : List (Option PyVal)),
        ((acc = emptyFrame ∧ accIdx = []) ∨
          (acc.names = columnsRequired ++ ["city"] ∧
            List.lookup "date_time" acc.cols = some accIdx)) →
        ∃ (F : Frame) (rest : List (Option PyVal)),
          retrieveLoop fetch city cl acc tr = (.ok F, tr ++ cl) ∧
          ChainBlocks cl rest ∧
          ((F.names = columnsRequired ++ ["city"] ∧
            List.lookup "date_time" F.cols = some (accIdx ++ rest)) ∨
           (acc = emptyFrame ∧ cl = [] ∧ rest = [])) := by
  intro cl
  induction cl with
  | nil =>
    intro hgood acc tr accIdx hinv
    refine ⟨acc, [], by rw [List.append_nil]; rfl, rfl, ?_⟩
    rcases hinv with ⟨rfl, rfl⟩ | ⟨hn, hl⟩
    · exact Or.inr ⟨rfl, rfl, rfl⟩
    · exact Or.inl ⟨hn, by simpa using hl⟩
  | cons p ps ih =>
    intro hgood acc tr accIdx hinv
    obtain ⟨a, b⟩ := p
    obtain ⟨m, c, hex, hlm, hsort, hrange⟩ := hgood (a, b) (List.mem_cons_self _ _)
    have hm_ne : m ≠ emptyFrame := by
      intro he
      rw [he] at hlm
      exact Option.noConfusion hlm
    have hm_names : m.names = columnsRequired := by
      rcases extractData_ok_names hex with he | hn
      · exact absurd he hm_ne
      · exact hn
    have hy := addCity_elim hm_names city
    have hy_names : (addCity m city).names = columnsRequired ++ ["city"] := by
      rw [hy]
      show (m.cols ++ _).map Prod.fst = _
      rw [List.map_append, show m.cols.map Prod.fst = m.names from rfl, hm_names]
      rfl
    have hy_lookup : List.lookup "date_time" (addCity m city).cols = some c := by
      rw [hy]
      exact lookup_append_some _ hlm
    have hinv' : (vconcat acc (addCity m city)).names = columnsRequired ++ ["city"] ∧
        List.lookup "date_time" (vconcat acc (addCity m city)).cols =
          some (accIdx ++ c) := by
      rcases hinv with ⟨rfl, rfl⟩ | ⟨hn, hl⟩
      · constructor
        · rw [vconcat_empty_names, hy_names]
        · have hk : "date_time" ∈ (emptyFrame.names ++
              (addCity m city).names.filter fun k => decide (¬ k ∈ emptyFrame.names)) := by
            rw [hy_names]
            show "date_time" ∈ (List.nil ++ _)
            rw [List.nil_append, List.mem_filter]
            exact ⟨by decide, by decide⟩
          rw [vconcat_lookup emptyFrame (addCity m city) "date_time" hk, hy_lookup]
          rfl
      · constructor
        · rw [vconcat_names_subset]
          · exact hn
          · intro k hk
            rw [hn]
            rw [hy_names] at hk
            exact hk
        · have hk : "date_time" ∈ (acc.names ++
              (addCity m city).names.filter fun k => decide (¬ k ∈ acc.names)) :=
            List.mem_append_left _ (by rw [hn]; decide)
          rw [vconcat_lookup acc (addCity m city) "date_time" hk, hl, hy_lookup]
          rfl
    have hstep : retrieveLoop fetch city ((a, b) :: ps) acc tr =
        retrieveLoop fetch city ps (vconcat acc (addCity m city)) (tr ++ [(a, b)]) := by
      show (match extractData (fetch a b) with
        | .error e => (Except.error e, tr ++ [(a, b)])
        | .ok m => retrieveLoop fetch city ps (vconcat acc (addCity m city))
            (tr ++ [(a, b)])) = _
      rw [hex]
    obtain ⟨F, rest', hloop, hcb, hfin⟩ :=
      ih (fun q hq => hgood q (List.mem_cons_of_mem _ hq))
        (vconcat acc (addCity m city)) (tr ++ [(a, b)]) (accIdx ++ c) (Or.inr hinv')
    refine ⟨F, c ++ rest', ?_, ⟨c, rest', rfl, hsort, hrange, hcb⟩, ?_⟩
    · rw [hstep, hloop]
      simp
    · rcases hfin with ⟨hn, hl⟩ | ⟨hae, -, -⟩
      · left
        refine ⟨hn, ?_⟩
        rw [hl, List.append_assoc]
      · exfalso
        have := hinv'.1
        rw [hae] at this
        exact absurd this (by decide)

instance : ∀ x y : Option PyVal, Decidable (tsLt x y)
  | some (.dt _ _), some (.dt _ _) =>
    inferInstanceAs (Decidable (_ ∨ _))
  | none, _ => isFalse id
  | some (.str _), _ => isFalse id
  | some (.dt _ _), none => isFalse id
  | some (.dt _ _), some (.str _) => isFalse id

instance (a b : Date) : ∀ x : Option PyVal, Decidable (tsInRange a b x)
  | some (.dt _ _) => inferInstanceAs (Decidable (_ ∧ _))
  | none => isFalse id
  | some (.str _) => isFalse id

/-! ## Claims C3 and C8 -/

/-- A provider day record whose `hourly` key is absent entirely. -/
def noHourlyDay : DayRecord := ⟨wDay.fields, some [wAstro.record], none⟩

/-- C3 counterexample: a day record that has its hourly sub-record and
its `date` field but lacks one required scalar field does NOT flatten
successfully — the required-column selection raises `KeyError` naming
the absent field, in each of the five cases. -/
theorem c3_counterexample :
    extractDay (stdDayMissing .maxT wDay wAstro [wHour "0"]) =
      .error (.keyError "maxtempC") ∧
    extractDay (stdDayMissing .minT wDay wAstro [wHour "0"]) =
      .error (.keyError "mintempC") ∧
    extractDay (stdDayMissing .snow wDay wAstro [wHour "0"]) =
      .error (.keyError "totalSnow_cm") ∧
    extractDay (stdDayMissing .sun wDay wAstro [wHour "0"]) =
      .error (.keyError "sunHour") ∧
    extractDay (stdDayMissing .uv wDay wAstro [wHour "0"]) =
      .error (.keyError "uvIndex") :=
  ⟨rfl, rfl, rfl, rfl, rfl⟩

/-- C3 (amended): for every one of the five non-`date` required scalar
fields, a day record lacking (only) that field has it omitted at the
subset step prior to forward-fill without error there, but flattening
then fails at the final `data[columns_required]` selection with a
`KeyError` naming the absent field. -/
theorem c3_missing_scalar_field (i : MissingScalar) (dv : DayVals)
    (av : AstroVals) (h0 : HourVals) (ht : List HourVals)
    (hp : ∀ h ∈ h0 :: ht,
      (parseTS (dv.date ++ " " ++ strTake 2 (zfill 4 h.time))).isSome) :
    (requiredSubset (fieldsMissing i dv)).map Prod.fst =
      requiredKeys.erase (missingName i) ∧
    extractDay (stdDayMissing i dv av (h0 :: ht)) =
      .error (.keyError (missingName i)) := by
  refine ⟨?_, extractDay_missing i dv av h0 ht hp⟩
  cases i <;> rfl

theorem c3_missing_scalar_field_witness :
    (∀ h ∈ [wHour "300"],
      (parseTS (wDay.date ++ " " ++ strTake 2 (zfill 4 h.time))).isSome) ∧
    ((requiredSubset (fieldsMissing .minT wDay)).map Prod.fst =
        requiredKeys.erase "mintempC" ∧
      extractDay (stdDayMissing .minT wDay wAstro [wHour "300"]) =
        .error (.keyError "mintempC")) :=
  ⟨by decide,
    c3_missing_scalar_field .minT wDay wAstro (wHour "300") [] (by decide)⟩

/-- C8 counterexample: for a day record with `date = "2020-01-01"` whose
`hourly` key is absent, the error raised is `KeyError('hourly')` — its
payload is the missing key name, not the offending day's date. -/
theorem c8_counterexample :
    extractData [noHourlyDay] = .error (.keyError "hourly") ∧
    ("hourly" : String) ≠ "2020-01-01" :=
  ⟨rfl, by decide⟩

/-- C8 (amended): a day record lacking its `hourly` sub-record makes the
whole `_extract_data` call raise (no partial rows are ever returned, for
any day list containing it and any accumulated state), and a day record
lacking `date` fails with `KeyError('date')`; in both cases the error
names the missing key rather than the day's date. -/
theorem c8_malformed_day_aborts :
    (∀ (ds : List DayRecord) (d : DayRecord), d ∈ ds → d.hourly = none →
      ∀ F : Frame, extractData ds ≠ .ok F) ∧
    (∀ (dv : DayVals) (av : AstroVals) (h0 : HourVals) (ht : List HourVals),
      extractDay (stdDayNoDate dv av (h0 :: ht)) = .error (.keyError "date")) := by
  constructor
  · intro ds d hd hnone F
    exact extractLoop_no_ok (extractDay_no_hourly hnone) ds hd emptyFrame F
  · intro dv av h0 ht
    exact extractDay_noDate dv av h0 ht

theorem c8_malformed_day_aborts_witness :
    noHourlyDay ∈ [noHourlyDay] ∧ noHourlyDay.hourly = none ∧
    (∀ F : Frame, extractData [noHourlyDay] ≠ .ok F) ∧
    extractDay (stdDayNoDate wDay wAstro [wHour "0"]) = .error (.keyError "date") :=
  ⟨List.mem_cons_self _ _, rfl,
    c8_malformed_day_aborts.1 [noHourlyDay] noHourlyDay
      (List.mem_cons_self _ _) rfl,
    c8_malformed_day_aborts.2 wDay wAstro (wHour "0") []⟩

/-! ## Claim C2 -/

/-- A fetch collaborator that returns the same well-formed day twice for
any requested sub-interval (a duplicated provider response). -/
def dupFetch : Date → Date → List DayRecord :=
  fun _ _ => [stdDay wDay wAstro [wHour "0", wHour "300"],
              stdDay wDay wAstro [wHour "0", wHour "300"]]

/-- A fetch collaborator honouring the provider contract on the
single-chunk range used in the witness. -/
def goodFetch : Date → Date → List DayRecord :=
  fun _ _ => [stdDay wDay wAstro [wHour "0", wHour "300"]]

/-- C2 counterexample: with a fetch that duplicates a day,
`retrieve_hist_data` returns successfully — no `DataIntegrityError`
exists in the code — and the returned index contains duplicate (and
out-of-order) timestamps. -/
theorem c2_counterexample :
    (runPipeline "London" ⟨2020, 1, 1⟩ ⟨2020, 1, 2⟩ 1 none dupFetch).1.toOption.map
        Prod.fst =
      some [some (.dt ⟨2020, 1, 1⟩ 0), some (.dt ⟨2020, 1, 1⟩ 3),
            some (.dt ⟨2020, 1, 1⟩ 0), some (.dt ⟨2020, 1, 1⟩ 3)] ∧
    ¬ ([some (PyVal.dt ⟨2020, 1, 1⟩ 0), some (.dt ⟨2020, 1, 1⟩ 3),
        some (.dt ⟨2020, 1, 1⟩ 0), some (.dt ⟨2020, 1, 1⟩ 3)] :
        List (Option PyVal)).Pairwise (fun x y => x ≠ y) := by
  constructor
  · decide
  · intro h
    rcases h with - | ⟨h1, -⟩
    exact h1 (some (.dt ⟨2020, 1, 1⟩ 0)) (by simp) rfl

/-- C2 (amended): `retrieve_hist_data` performs no duplicate check and no
sort; when every fetched sub-interval flattens to a frame whose
`date_time` column is strictly ascending and dated within that
sub-interval (the provider contract), the returned index is strictly
ascending with no duplicate timestamps. -/
theorem c2_sorted_given_provider_contract
    (city : String) (s e : Date) (freq : Int) (csv : Option String)
    (fetch : Date → Date → List DayRecord)
    (hs : s.Valid) (he : e.Valid) (hlt : s < e)
    (hfreq : freq ∈ ([1, 3, 6, 12] : List Int))
    (hfetch : ∀ p ∈ chunks s e, ∃ (F : Frame) (c : List (Option PyVal)),
      extractData (fetch p.1 p.2) = .ok F ∧
      List.lookup "date_time" F.cols = some c ∧
      c.Pairwise tsLt ∧ (∀ x ∈ c, tsInRange p.1 p.2 x)) :
    ∃ (idx : List (Option PyVal)) (restF : Frame),
      runPipeline city s e freq csv fetch = (.ok (idx, restF), chunks s e) ∧
      idx.Pairwise tsLt ∧ idx.Pairwise (fun x y => x ≠ y) := by
  have hse := Date.le_of_lt hlt
  have hpw : List.Pairwise (fun p q : Date × Date => p.2 < q.1) (chunks s e) := by
    rw [chunks_eq hs he hse]
    exact chunkList_pairwise _ _ _ hs rfl
  have hne : chunks s e ≠ [] := by
    rw [chunks_eq hs he hse]
    exact chunkList_ne_nil _ _ _ _
  obtain ⟨F, rest, hloop, hcb, hfin⟩ :=
    retrieveLoop_sorted city fetch (chunks s e) hfetch emptyFrame [] []
      (Or.inl ⟨rfl, rfl⟩)
  rcases hfin with ⟨hn, hl⟩ | ⟨-, hcl, -⟩
  · rw [List.nil_append] at hl
    have hsorted : rest.Pairwise tsLt := chainBlocks_pairwise _ _ hpw hcb
    refine ⟨rest, ⟨F.nrows, F.cols.eraseP fun kc => kc.1 == "date_time"⟩, ?_,
      hsorted, hsorted.imp fun h => tsLt_ne h⟩
    have hinit : init city s e freq csv = .ok ⟨city, s, e, freq, csv⟩ := by
      unfold init
      rw [if_neg (by rw [Date.not_le]; exact hlt), if_neg (by simp [hfreq])]
    unfold runPipeline
    rw [hinit]
    show (match retrieveLoop fetch city (chunks s e) emptyFrame [] with
      | (.error err, tr) => (Except.error err, tr)
      | (.ok f, tr) =>
        match setIndex f "date_time" with
        | .error err => (Except.error err, tr)
        | .ok pr => (Except.ok pr, tr)) = _
    rw [hloop]
    show (match setIndex F "date_time" with
      | .error err => (Except.error err, [] ++ chunks s e)
      | .ok pr => (Except.ok pr, [] ++ chunks s e)) = _
    unfold setIndex
    rw [hl]
    rw [List.nil_append]
  · exact absurd hcl hne

theorem c2_sorted_given_provider_contract_witness :
    ((⟨2020, 1, 1⟩ : Date).Valid ∧ (⟨2020, 1, 2⟩ : Date).Valid ∧
      (⟨2020, 1, 1⟩ : Date) < ⟨2020, 1, 2⟩ ∧
      (1 : Int) ∈ ([1, 3, 6, 12] : List Int) ∧
      (∀ p ∈ chunks ⟨2020, 1, 1⟩ ⟨2020, 1, 2⟩,
        ∃ (F : Frame) (c : List (Option PyVal)),
          extractData (goodFetch p.1 p.2) = .ok F ∧
          List.lookup "date_time" F.cols = some c ∧
          c.Pairwise tsLt ∧ (∀ x ∈ c, tsInRange p.1 p.2 x))) ∧
    ∃ (idx : List (Option PyVal)) (restF : Frame),
      runPipeline "London" ⟨2020, 1, 1⟩ ⟨2020, 1, 2⟩ 1 none goodFetch =
        (.ok (idx, restF), chunks ⟨2020, 1, 1⟩ ⟨2020, 1, 2⟩) ∧
      idx.Pairwise tsLt ∧ idx.Pairwise (fun x y => x ≠ y) := by
  have hgood : ∀ p ∈ chunks ⟨2020, 1, 1⟩ ⟨2020, 1, 2⟩,
      ∃ (F : Frame) (c : List (Option PyVal)),
        extractData (goodFetch p.1 p.2) = .ok F ∧
        List.lookup "date_time" F.cols = some c ∧
        c.Pairwise tsLt ∧ (∀ x ∈ c, tsInRange p.1 p.2 x) := by
    intro p hp
    have hc : chunks ⟨2020, 1, 1⟩ ⟨2020, 1, 2⟩ =
        [(⟨2020, 1, 1⟩, ⟨2020, 1, 2⟩)] := by decide
    rw [hc] at hp
    have hp' := List.mem_singleton.mp hp
    subst hp'
    exact ⟨(extractData (goodFetch ⟨2020, 1, 1⟩ ⟨2020, 1, 2⟩)).toOption.getD
        emptyFrame,
      [some (.dt ⟨2020, 1, 1⟩ 0), some (.dt ⟨2020, 1, 1⟩ 3)],
      rfl, rfl, by decide, by decide⟩
  exact ⟨⟨by decide, by decide, by decide, by decide, hgood⟩,
    c2_sorted_given_provider_contract "London" ⟨2020, 1, 1⟩ ⟨2020, 1, 2⟩ 1 none
      goodFetch (by decide) (by decide) (by decide) (by decide) hgood⟩

/-! ## Claims C5, C9, C10 -/

/-- C5: a frequency outside `{1, 3, 6, 12}`, or a start date not strictly
before the end date, makes construction raise the corresponding
`ValueError` (the spec's ValidationError), and the fetch collaborator is
never invoked (empty fetch trace). -/
theorem c5_validation_before_fetch (city : String) (s e : Date) (freq : Int)
    (csv : Option String) (fetch : Date → Date → List DayRecord)
    (h : ¬ freq ∈ ([1, 3, 6, 12] : List Int) ∨ ¬ s < e) :
    ∃ msg, runPipeline city s e freq csv fetch = (.error (.valueError msg), []) := by
  unfold runPipeline init
  rcases h with h | h
  · by_cases hd : e ≤ s
    · rw [if_pos hd]
      exact ⟨_, rfl⟩
    · rw [if_neg hd, if_pos h]
      exact ⟨_, rfl⟩
  · rw [if_pos (Date.not_lt.mp h)]
    exact ⟨_, rfl⟩

theorem c5_validation_before_fetch_witness :
    (¬ (2 : Int) ∈ ([1, 3, 6, 12] : List Int) ∨
      ¬ (⟨2020, 1, 1⟩ : Date) < ⟨2020, 2, 1⟩) ∧
    ∃ msg, runPipeline "London" ⟨2020, 1, 1⟩ ⟨2020, 2, 1⟩ 2 none
      (fun _ _ => []) = (.error (.valueError msg), []) :=
  ⟨Or.inl (by decide),
    c5_validation_before_fetch "London" ⟨2020, 1, 1⟩ ⟨2020, 2, 1⟩ 2 none
      (fun _ _ => []) (Or.inl (by decide))⟩

/-- C9: the `csv_directory` default is the unbound name `root_dir`, so
evaluating the class definition raises `NameError`, and hence no
construction that relies on the default can produce a `State`. -/
theorem c9_root_dir_unbound :
    evalCsvDirectoryDefault = .error (.nameError "root_dir") ∧
    ∀ (city : String) (s e : Date) (freq : Int),
      constructWithDefault city s e freq = .error (.nameError "root_dir") := by
  constructor
  · rfl
  · intro city s e freq
    rfl

/-- C10: with `verbose = False` the whole retrieval body is skipped:
no fetch occurs and the function returns `None`; conversely only
`verbose = True` instances can ever return an attribute list. -/
theorem c10_verbose_gates_retrieval (st : AttrState)
    (fetch : Unit → List DayRecord) (h : st.verbose = false) :
    retrieveListOfOptions st fetch = (.ok none, []) ∧
    ∀ (st' : AttrState) (fetch' : Unit → List DayRecord) (r : List String)
      (tr : List Unit), retrieveListOfOptions st' fetch' = (.ok (some r), tr) →
      st'.verbose = true := by
  constructor
  · unfold retrieveListOfOptions
    rw [h]
    simp
  · intro st' fetch' r tr hr
    cases hv : st'.verbose with
    | true => rfl
    | false =>
      unfold retrieveListOfOptions at hr
      rw [hv] at hr
      simp at hr

theorem c10_verbose_gates_retrieval_witness :
    (AttrState.mk "key" "London" "2020-01-01" false).verbose = false ∧
    (retrieveListOfOptions ⟨"key", "London", "2020-01-01", false⟩
        (fun _ => []) = (.ok none, []) ∧
      ∀ (st' : AttrState) (fetch' : Unit → List DayRecord) (r : List String)
        (tr : List Unit), retrieveListOfOptions st' fetch' = (.ok (some r), tr) →
        st'.verbose = true) :=
  ⟨rfl, c10_verbose_gates_retrieval ⟨"key", "London", "2020-01-01", false⟩
    (fun _ => []) rfl⟩

end WorldWeatherPy
